import Mathlib

/-!
Shallow embedding of the gidh-analytics real-time pipeline core, translated from
the repository sources:
  - src/core/divergence.py        (PatternDetector, _calculate_divergence_score)
  - src/service/bar_aggregator.py (BarAggregator)
  - src/core/feature_enricher.py  (FeatureEnricher)
  - src/core/alert_engine.py      (AlertEngine)
  - src/common/strategy_config.py (thresholds)

Python floats are modelled as exact rationals (ℚ), Python ints as ℤ/ℕ, Python
dicts keyed by strings as insertion-ordered association lists, deques with a
maxlen as lists with an explicit bounded push, datetimes as natural-number
second counts, and None-able values as Option.
-/

namespace Gidh

/-- Lookup in an insertion-ordered association list, mirroring Python dict
access `d[k]` / `d.get(k)`. -/
def dictGet? {α : Type} (d : List (String × α)) (k : String) : Option α :=
  match d with
  | [] => none
  | (k', v) :: rest => if k' = k then some v else dictGet? rest k

/-- Assignment `d[k] = v` on an insertion-ordered association list, mirroring
Python dict semantics: update in place if the key exists, else append. -/
def dictSet {α : Type} (d : List (String × α)) (k : String) (v : α) :
    List (String × α) :=
  match d with
  | [] => [(k, v)]
  | (k', v') :: rest =>
      if k' = k then (k, v) :: rest else (k', v') :: dictSet rest k v

/-- `deque(maxlen = m)` append: add on the right, dropping from the left when
the bound is exceeded. -/
def pushMax {α : Type} (m : ℕ) (l : List α) (x : α) : List α :=
  let l' := l ++ [x]
  if m < l'.length then l'.drop (l'.length - m) else l'

/-- Python negative indexing `l[-k]` for `0 ≤ k ≤ len(l)`: `l[-0]` is `l[0]`,
otherwise the k-th element from the right. -/
def getNegIdx {α : Type} (l : List α) (k : ℕ) : Option α :=
  if k = 0 then l.get? 0 else l.get? (l.length - k)

/-- Python slice `l[-k:]`; for `k = 0` this is the whole list. -/
def lastSlice {α : Type} (l : List α) (k : ℕ) : List α :=
  if k = 0 then l else l.drop (l.length - k)

/-- A value stored in a bar's `raw_scores` dict: a number, a boolean flag, a
string, or the nested divergence score map. -/
inductive RawVal : Type where
  | num (q : ℚ)
  | flag (b : Bool)
  | strv (s : String)
  | dmap (m : List (String × ℚ))
deriving DecidableEq

abbrev RawScores := List (String × RawVal)

/-- `raw_scores.get(k, dflt)` where a numeric value is expected. -/
def getNum (d : RawScores) (k : String) (dflt : ℚ) : ℚ :=
  match dictGet? d k with
  | some (RawVal.num q) => q
  | _ => dflt

/-- One order-book depth level (service/models.py `DepthLevel`). -/
structure DepthLevel : Type where
  price : ℚ
  quantity : ℤ
  orders : ℤ
deriving DecidableEq

/-- Order-book buy/sell sides (service/models.py `OrderDepth`). -/
structure OrderDepth : Type where
  buy : List DepthLevel
  sell : List DepthLevel
deriving DecidableEq

/-- A raw market-data update (service/models.py `TickData`); the fields the
core pipeline reads. Timestamps are seconds. -/
structure TickData : Type where
  timestamp : ℕ
  instrument_token : ℕ
  last_price : Option ℚ := none
  average_traded_price : Option ℚ := none
  volume_traded : Option ℤ := none
  depth : Option OrderDepth := none
deriving DecidableEq

/-- A tick extended with enrichment features (service/models.py
`EnrichedTick`). -/
structure EnrichedTick : Type where
  timestamp : ℕ
  instrument_token : ℕ
  last_price : Option ℚ := none
  average_traded_price : Option ℚ := none
  volume_traded : Option ℤ := none
  depth : Option OrderDepth := none
  tick_volume : ℤ := 0
  trade_sign : ℤ := 0
  is_large_trade : Bool := false
  is_sell_absorption : Bool := false
  is_buy_absorption : Bool := false
deriving DecidableEq

/-- An aggregated bar (service/models.py `BarData`). The source stores the
interval as a string such as "5m"; the divergence scorer parses it back to
minutes, so the embedding keeps the minute count directly.
`open` is a Lean keyword, hence the field name `open_`. -/
structure BarData : Type where
  timestamp : ℕ
  interval_min : ℕ
  open_ : ℚ
  high : ℚ
  low : ℚ
  close : ℚ
  volume : ℤ
  bar_vwap : ℚ
  session_vwap : Option ℚ := none
  bar_count : ℕ := 1
  raw_scores : RawScores := []
deriving DecidableEq

/-! ## Divergence scorer (src/core/divergence.py) -/

def DIVERGENCE_MULTIPLIER : ℚ := 2

/-- `_calculate_divergence_score`: normalized divergence between a primary and
a secondary change. -/
def _calculate_divergence_score (primary_change secondary_change : ℚ) : ℚ :=
  let bullish_divergence := secondary_change - primary_change * DIVERGENCE_MULTIPLIER
  let bearish_divergence := primary_change * DIVERGENCE_MULTIPLIER - secondary_change
  if 0 < bullish_divergence then min 1 (bullish_divergence * 10)
  else if 0 < bearish_divergence then -(min 1 (bearish_divergence * 10))
  else 0

/-- Lookback durations from src/core/divergence.py, in minutes. -/
def COMPOSITE_FEATURE_LOOKBACK_MIN : ℕ := 30
def MIN_LOOKBACK_MIN : ℕ := 5

/-- `PatternDetector.calculate_scores`: divergence scores of a current bar
against its history. `bar_history` is oldest-first, mirroring the deque. -/
def calculate_scores (current_bar : BarData) (bar_history : List BarData) :
    List (String × ℚ) :=
  let interval_minutes := current_bar.interval_min
  let current_lookback_duration := bar_history.length * interval_minutes
  if current_lookback_duration < MIN_LOOKBACK_MIN then [] else
  let current_lookback_duration :=
    min current_lookback_duration COMPOSITE_FEATURE_LOOKBACK_MIN
  let lookback_bars := current_lookback_duration / interval_minutes
  if bar_history.length < lookback_bars then [] else
  match getNegIdx bar_history lookback_bars with
  | none => []
  | some start_bar =>
    if start_bar.close = 0 then [] else
    let price_change := (current_bar.close - start_bar.close) / start_bar.close
    let window := lastSlice bar_history lookback_bars
    let volume_in_window : ℤ := (window.map (fun b => b.volume)).sum
    let volume_in_window : ℤ := if volume_in_window = 0 then 1 else volume_in_window
    let large_volume_in_window : ℚ :=
      (window.map (fun b =>
        getNum b.raw_scores "large_buy_volume" 0 +
        getNum b.raw_scores "large_sell_volume" 0)).sum
    let large_volume_in_window : ℚ :=
      if large_volume_in_window = 0 then 1 else large_volume_in_window
    let cvd_change :=
      (getNum current_bar.raw_scores "cvd_5m_smoothed" 0 -
        getNum start_bar.raw_scores "cvd_5m_smoothed" 0) / (volume_in_window : ℚ)
    let obv_change :=
      (getNum current_bar.raw_scores "obv" 0 -
        getNum start_bar.raw_scores "obv" 0) / (volume_in_window : ℚ)
    let lvc_change :=
      (getNum current_bar.raw_scores "lvc_delta" 0 -
        getNum start_bar.raw_scores "lvc_delta" 0) / large_volume_in_window
    let rsi_change :=
      (getNum current_bar.raw_scores "rsi_smoothed" 50 -
        getNum start_bar.raw_scores "rsi_smoothed" 50) / 100
    let mfi_change :=
      (getNum current_bar.raw_scores "mfi_smoothed" 50 -
        getNum start_bar.raw_scores "mfi_smoothed" 50) / 100
    let clv_change :=
      getNum current_bar.raw_scores "clv_smoothed" 0 -
        getNum start_bar.raw_scores "clv_smoothed" 0
    [("price_vs_lvc", _calculate_divergence_score price_change lvc_change),
     ("price_vs_cvd", _calculate_divergence_score price_change cvd_change),
     ("price_vs_obv", _calculate_divergence_score price_change obv_change),
     ("price_vs_rsi", _calculate_divergence_score price_change rsi_change),
     ("price_vs_mfi", _calculate_divergence_score price_change mfi_change),
     ("price_vs_clv", _calculate_divergence_score price_change clv_change),
     ("lvc_vs_cvd", _calculate_divergence_score lvc_change cvd_change),
     ("lvc_vs_obv", _calculate_divergence_score lvc_change obv_change),
     ("lvc_vs_rsi", _calculate_divergence_score lvc_change rsi_change),
     ("lvc_vs_mfi", _calculate_divergence_score lvc_change mfi_change)]

/-- The lookback bar count chosen by `calculate_scores`:
`int(min(len·interval, 30) / interval)`. -/
def div_lookback_bars (current_bar : BarData) (bar_history : List BarData) : ℕ :=
  min (bar_history.length * current_bar.interval_min)
    COMPOSITE_FEATURE_LOOKBACK_MIN / current_bar.interval_min

/-- Total bar volume over the divergence window
(`sum(b.volume for b in list(bar_history)[-lookback_bars:])`). -/
def div_volume_in_window (current_bar : BarData)
    (bar_history : List BarData) : ℤ :=
  ((lastSlice bar_history (div_lookback_bars current_bar bar_history)).map
    (fun b => b.volume)).sum

/-! ## Bar aggregator (src/service/bar_aggregator.py) -/

def INDICATOR_PERIOD : ℕ := 14
def CLV_SMOOTHING_PERIOD : ℕ := 3

/-- `_bars_for(mins)`: number of bars covering `mins` minutes at this
interval (`max(1, ceil(mins / interval_min))`). -/
def _bars_for (interval_min mins : ℕ) : ℕ :=
  max 1 ((mins + interval_min - 1) / interval_min)

/-- Mutable state of one `BarAggregator` (per stock × interval). -/
structure AggState : Type where
  interval_min : ℕ
  building_bar : Option BarData := none
  bar_total_price_volume : ℚ := 0
  bar_history : List BarData := []
  delta_history_5m : List ℚ := []
  delta_history_10m : List ℚ := []
  delta_history_30m : List ℚ := []
  prev_session_pv : Option ℚ := none
  prev_cum_vol : Option ℤ := none
  avg_gain : ℚ := 0
  avg_loss : ℚ := 0
  is_rsi_initialized : Bool := false
  money_flow_history : List (ℚ × ℤ) := []
  clv_history : List ℚ := []
deriving DecidableEq

/-- `BarAggregator.__init__` for a given interval in minutes. -/
def initAgg (interval_min : ℕ) : AggState := { interval_min := interval_min }

/-- `BarAggregator._calculate_rsi` (provisional Wilder RSI against the
previous finalized close). -/
def _calculate_rsi (st : AggState) (current_close prev_close : ℚ) : ℚ :=
  let change := current_close - prev_close
  let gain := if 0 < change then change else 0
  let loss := if change < 0 then -change else 0
  let current_avg_gain :=
    if st.is_rsi_initialized then
      (st.avg_gain * ((INDICATOR_PERIOD : ℚ) - 1) + gain) / (INDICATOR_PERIOD : ℚ)
    else
      (st.avg_gain * (st.bar_history.length : ℚ) + gain) /
        ((st.bar_history.length : ℚ) + 1)
  let current_avg_loss :=
    if st.is_rsi_initialized then
      (st.avg_loss * ((INDICATOR_PERIOD : ℚ) - 1) + loss) / (INDICATOR_PERIOD : ℚ)
    else
      (st.avg_loss * (st.bar_history.length : ℚ) + loss) /
        ((st.bar_history.length : ℚ) + 1)
  if current_avg_loss = 0 then 100 else
  let rs := current_avg_gain / current_avg_loss
  if 1 + rs ≠ 0 then 100 - 100 / (1 + rs) else 100

/-- `BarAggregator._calculate_mfi` (provisional MFI with a temporary copy of
the money-flow ring). -/
def _calculate_mfi (st : AggState) (current_bar : BarData)
    (prev_bar : Option BarData) : ℚ :=
  match prev_bar with
  | none => 50
  | some prev_bar =>
    let tp := (current_bar.high + current_bar.low + current_bar.close) / 3
    let prev_tp := (prev_bar.high + prev_bar.low + prev_bar.close) / 3
    let sign : ℤ := if prev_tp < tp then 1 else if tp < prev_tp then -1 else 0
    let temp_mf_history :=
      st.money_flow_history ++ [(tp * (current_bar.volume : ℚ), sign)]
    let temp_mf_history :=
      if INDICATOR_PERIOD < temp_mf_history.length then temp_mf_history.drop 1
      else temp_mf_history
    let pos_flow := ((temp_mf_history.filter fun p => p.2 = 1).map Prod.fst).sum
    let neg_flow := ((temp_mf_history.filter fun p => p.2 = -1).map Prod.fst).sum
    if neg_flow = 0 then (if 0 < pos_flow then 100 else 50) else
    let mf_ratio := pos_flow / neg_flow
    100 - 100 / (1 + mf_ratio)

/-- `BarAggregator._calculate_obv`. -/
def _calculate_obv (current_close prev_close : ℚ) (volume : ℤ)
    (prev_obv : ℚ) : ℚ :=
  if prev_close < current_close then prev_obv + (volume : ℚ)
  else if current_close < prev_close then prev_obv - (volume : ℚ)
  else prev_obv

/-- The score recomputation of `BarAggregator._recalculate_bar_features` for
the building bar `bar` of state `st`. -/
def _recalc_scores (st : AggState) (bar : BarData) : RawScores :=
    let scores := bar.raw_scores
    let prev_bar := st.bar_history.getLast?
    let prev_close := match prev_bar with
      | some p => p.close
      | none => bar.open_
    let prev_obv := match prev_bar with
      | some p => getNum p.raw_scores "obv" 0
      | none => 0
    let prev_lvc_delta := match prev_bar with
      | some p => getNum p.raw_scores "lvc_delta" 0
      | none => 0
    let bar_delta := getNum scores "bar_delta" 0
    let scores := dictSet scores "cvd_5m"
      (RawVal.num (st.delta_history_5m.sum + bar_delta))
    let scores := dictSet scores "cvd_10m"
      (RawVal.num (st.delta_history_10m.sum + bar_delta))
    let scores := dictSet scores "cvd_30m"
      (RawVal.num (st.delta_history_30m.sum + bar_delta))
    let scores := dictSet scores "rsi"
      (RawVal.num (_calculate_rsi st bar.close prev_close))
    let scores := dictSet scores "mfi"
      (RawVal.num (_calculate_mfi st bar prev_bar))
    let scores := dictSet scores "obv"
      (RawVal.num (_calculate_obv bar.close prev_close bar.volume prev_obv))
    let scores := dictSet scores "lvc_delta"
      (RawVal.num (prev_lvc_delta + getNum scores "large_buy_volume" 0 -
        getNum scores "large_sell_volume" 0))
    let bar_range := bar.high - bar.low
    let current_clv :=
      if 0 < bar_range then
        ((bar.close - bar.low) - (bar.high - bar.close)) / bar_range
      else 0
    let scores := dictSet scores "clv" (RawVal.num current_clv)
    let clv_values_for_avg := st.clv_history ++ [current_clv]
    let scores := dictSet scores "clv_smoothed"
      (RawVal.num (clv_values_for_avg.sum / (clv_values_for_avg.length : ℚ)))
    let bar' := { bar with raw_scores := scores }
    let divergence := calculate_scores bar' st.bar_history
    dictSet scores "divergence" (RawVal.dmap divergence)

/-- `BarAggregator._recalculate_bar_features`: refresh the building bar's
derived scores (no-op when there is no building bar). -/
def _recalculate_bar_features (st : AggState) : AggState :=
  match st.building_bar with
  | none => st
  | some bar =>
    { st with building_bar := some { bar with raw_scores := _recalc_scores st bar } }

/-- `BarAggregator._start_new_bar`. The caller (`add_tick`) guarantees the
tick has a truthy `last_price`. -/
def _start_new_bar (st : AggState) (bar_timestamp : ℕ) (tick : EnrichedTick) :
    AggState :=
  let lp := tick.last_price.getD 0
  let st := { st with
    building_bar := some {
      timestamp := bar_timestamp
      interval_min := st.interval_min
      open_ := lp, high := lp, low := lp, close := lp
      volume := 0, bar_vwap := 0
      session_vwap := tick.average_traded_price
      bar_count := st.bar_history.length + 1
      raw_scores := [] }
    bar_total_price_volume := 0 }
  _recalculate_bar_features st

/-- The accurate-VWAP-and-volume block of `BarAggregator._update_bar_data`:
derive per-tick volume/value increments from session cumulatives (with a
first-tick fallback) and fold them into the bar. Returns the updated
`(prev_session_pv, prev_cum_vol, bar_total_price_volume)` state and bar. -/
def _vwap_block (prev_session_pv : Option ℚ) (prev_cum_vol : Option ℤ)
    (bar_total_price_volume : ℚ) (bar : BarData) (tick : EnrichedTick)
    (lp : ℚ) : (Option ℚ × Option ℤ × ℚ) × BarData :=
  match tick.volume_traded, tick.average_traded_price with
  | some vt, some atp =>
    let session_pv := atp * (vt : ℚ)
    let dv_dpv : ℤ × ℚ :=
      match prev_session_pv, prev_cum_vol with
      | some ppv, some pcv => (max 0 (vt - pcv), max 0 (session_pv - ppv))
      | _, _ => (tick.tick_volume, lp * (tick.tick_volume : ℚ))
    let dv := dv_dpv.1
    let dpv := dv_dpv.2
    if 0 < dv then
      let bar := { bar with volume := bar.volume + dv }
      let btpv := bar_total_price_volume + dpv
      let bar :=
        if 0 < bar.volume then
          { bar with bar_vwap := btpv / (bar.volume : ℚ) }
        else bar
      ((some session_pv, some vt, btpv), bar)
    else ((some session_pv, some vt, bar_total_price_volume), bar)
  | _, _ => ((prev_session_pv, prev_cum_vol, bar_total_price_volume), bar)

/-- The score-calculations block of `BarAggregator._update_bar_data`:
accumulate delta / large / passive volumes into `raw_scores` when the tick
carries volume. -/
def _scores_block (scores : RawScores) (tick : EnrichedTick) : RawScores :=
  if 0 < tick.tick_volume then
    let scores := dictSet scores "bar_delta"
      (RawVal.num (getNum scores "bar_delta" 0 +
        (tick.tick_volume : ℚ) * (tick.trade_sign : ℚ)))
    let scores :=
      if tick.is_large_trade then
        if tick.trade_sign = 1 then
          dictSet scores "large_buy_volume"
            (RawVal.num (getNum scores "large_buy_volume" 0 +
              (tick.tick_volume : ℚ)))
        else
          dictSet scores "large_sell_volume"
            (RawVal.num (getNum scores "large_sell_volume" 0 +
              (tick.tick_volume : ℚ)))
      else scores
    let scores :=
      if tick.is_buy_absorption then
        dictSet scores "passive_buy_volume"
          (RawVal.num (getNum scores "passive_buy_volume" 0 +
            (tick.tick_volume : ℚ)))
      else scores
    let scores :=
      if tick.is_sell_absorption then
        dictSet scores "passive_sell_volume"
          (RawVal.num (getNum scores "passive_sell_volume" 0 +
            (tick.tick_volume : ℚ)))
      else scores
    scores
  else scores

/-- `BarAggregator._update_bar_data`. The caller guarantees a truthy
`last_price` and an existing building bar. -/
def _update_bar_data (st : AggState) (tick : EnrichedTick) : AggState :=
  match st.building_bar with
  | none => st
  | some bar =>
    let lp := tick.last_price.getD 0
    let bar := { bar with high := if bar.high < lp then lp else bar.high }
    let bar := { bar with low := if lp < bar.low then lp else bar.low }
    let bar := { bar with close := lp, session_vwap := tick.average_traded_price }
    let vb := _vwap_block st.prev_session_pv st.prev_cum_vol
      st.bar_total_price_volume bar tick lp
    let bar := vb.2
    let bar := { bar with raw_scores := _scores_block bar.raw_scores tick }
    _recalculate_bar_features { st with
      prev_session_pv := vb.1.1
      prev_cum_vol := vb.1.2.1
      bar_total_price_volume := vb.1.2.2
      building_bar := some bar }

/-- Epsilon used for the market-structure flags (`1e-9`). -/
def structureEps : ℚ := 1 / 1000000000

/-- The update-state-after-bar-is-complete block of
`BarAggregator._finalize_bar`: Wilder RSI averages, money-flow ring, CVD
delta deques and CLV ring. -/
def _finalize_state_block (st : AggState) (final_bar : BarData) : AggState :=
  let prev_close := match st.bar_history.getLast? with
    | some p => p.close
    | none => final_bar.open_
  let change := final_bar.close - prev_close
  let gain := if 0 < change then change else 0
  let loss := if change < 0 then -change else 0
  let st :=
    if ¬ st.is_rsi_initialized then
      let st :=
        if st.bar_history.length < INDICATOR_PERIOD then
          { st with
            avg_gain := (st.avg_gain * (st.bar_history.length : ℚ) + gain) /
              ((st.bar_history.length : ℚ) + 1)
            avg_loss := (st.avg_loss * (st.bar_history.length : ℚ) + loss) /
              ((st.bar_history.length : ℚ) + 1) }
        else st
      if st.bar_history.length = INDICATOR_PERIOD - 1 then
        { st with is_rsi_initialized := true }
      else st
    else
      { st with
        avg_gain := (st.avg_gain * ((INDICATOR_PERIOD : ℚ) - 1) + gain) /
          (INDICATOR_PERIOD : ℚ)
        avg_loss := (st.avg_loss * ((INDICATOR_PERIOD : ℚ) - 1) + loss) /
          (INDICATOR_PERIOD : ℚ) }
  let tp := (final_bar.high + final_bar.low + final_bar.close) / 3
  let prev_tp := match st.bar_history.getLast? with
    | some p => (p.high + p.low + p.close) / 3
    | none => tp
  let sign : ℤ := if prev_tp < tp then 1 else if tp < prev_tp then -1 else 0
  let st := { st with
    money_flow_history := pushMax INDICATOR_PERIOD st.money_flow_history
      (tp * (final_bar.volume : ℚ), sign) }
  let bar_delta := getNum final_bar.raw_scores "bar_delta" 0
  { st with
    delta_history_5m :=
      pushMax (_bars_for st.interval_min 5) st.delta_history_5m bar_delta
    delta_history_10m :=
      pushMax (_bars_for st.interval_min 10) st.delta_history_10m bar_delta
    delta_history_30m :=
      pushMax (_bars_for st.interval_min 30) st.delta_history_30m bar_delta
    clv_history := pushMax CLV_SMOOTHING_PERIOD st.clv_history
      (getNum final_bar.raw_scores "clv" 0) }

/-- The market-structure-flags block of `BarAggregator._finalize_bar`. -/
def _structure_flags_block (rs : RawScores) (prev? : Option BarData)
    (final_bar : BarData) : RawScores :=
  let eps := structureEps
  match prev? with
  | some prev =>
    let hh := prev.high + eps < final_bar.high
    let hl := prev.low + eps < final_bar.low
    let lh := final_bar.high < prev.high - eps
    let ll := final_bar.low < prev.low - eps
    let inside := final_bar.high ≤ prev.high + eps ∧ prev.low - eps ≤ final_bar.low
    let outside := prev.high + eps < final_bar.high ∧ final_bar.low < prev.low - eps
    let rs := dictSet rs "HH" (RawVal.flag (decide hh))
    let rs := dictSet rs "HL" (RawVal.flag (decide hl))
    let rs := dictSet rs "LH" (RawVal.flag (decide lh))
    let rs := dictSet rs "LL" (RawVal.flag (decide ll))
    let rs := dictSet rs "inside" (RawVal.flag (decide inside))
    let rs := dictSet rs "outside" (RawVal.flag (decide outside))
    let structure_val : String :=
      if hh ∧ hl then "up"
      else if ll ∧ lh then "down"
      else if inside then "inside"
      else if outside then "outside"
      else "mixed"
    dictSet rs "structure" (RawVal.strv structure_val)
  | none =>
    let rs := dictSet rs "HH" (RawVal.flag false)
    let rs := dictSet rs "HL" (RawVal.flag false)
    let rs := dictSet rs "LH" (RawVal.flag false)
    let rs := dictSet rs "LL" (RawVal.flag false)
    let rs := dictSet rs "inside" (RawVal.flag false)
    let rs := dictSet rs "outside" (RawVal.flag false)
    dictSet rs "structure" (RawVal.strv "init")

/-- `BarAggregator._finalize_bar`: final feature pass, indicator-state update,
structure flags, and append to history. Returns the finalized bar. The source
assumes a building bar exists; the embedding returns `none` otherwise. -/
def _finalize_bar (st : AggState) : AggState × Option BarData :=
  let st := _recalculate_bar_features st
  match st.building_bar with
  | none => (st, none)
  | some final_bar =>
    let st := _finalize_state_block st final_bar
    let rs := _structure_flags_block final_bar.raw_scores
      st.bar_history.getLast? final_bar
    let final_bar := { final_bar with raw_scores := rs }
    ({ st with
        bar_history := pushMax 200 st.bar_history final_bar
        building_bar := none },
      some final_bar)

/-- Bucket start of a tick timestamp (seconds): `replace(second=0)` then snap
the minute-of-hour down to a multiple of the interval. -/
def bucket_ts (interval_min : ℕ) (ts : ℕ) : ℕ :=
  let tmin := ts / 60
  let minute_val := (tmin % 60 / interval_min) * interval_min
  (tmin - tmin % 60 + minute_val) * 60

/-- Python truthiness of an optional price (`not tick.last_price`). -/
def priceFalsy (o : Option ℚ) : Bool :=
  match o with
  | none => true
  | some p => p == 0

/-- `BarAggregator.add_tick`: returns the updated state and the just-finalized
bar when the tick rolled the bucket. -/
def add_tick (st : AggState) (tick : EnrichedTick) : AggState × Option BarData :=
  if priceFalsy tick.last_price then (st, none) else
  let bar_timestamp := bucket_ts st.interval_min tick.timestamp
  let stepped : AggState × Option BarData :=
    match st.building_bar with
    | none => (_start_new_bar st bar_timestamp tick, none)
    | some b =>
      if b.timestamp ≠ bar_timestamp then
        let fin := _finalize_bar st
        (_start_new_bar fin.1 bar_timestamp tick, fin.2)
      else (st, none)
  (_update_bar_data stepped.1 tick, stepped.2)

/-- One step of an aggregator run: feed a tick and append the finalized bar
(if any) to the output stream. -/
def aggStep (acc : AggState × List BarData) (t : EnrichedTick) :
    AggState × List BarData :=
  let r := add_tick acc.1 t
  (r.1, acc.2 ++ r.2.toList)

/-- Run one aggregator over a tick list, collecting finalized bars in order. -/
def runAgg (interval_min : ℕ) (ticks : List EnrichedTick) :
    AggState × List BarData :=
  ticks.foldl aggStep (initAgg interval_min, [])

/-! ## Feature enricher (src/core/feature_enricher.py) -/

def ICEBERG_CONFIRMATION_THRESHOLD : ℕ := 2

/-- Per-instrument enricher state (`_get_instrument_state` defaults). A
missing large-trade threshold (`float('inf')`) is modelled as `none`. -/
structure InstrumentState : Type where
  last_tick : Option TickData := none
  last_best_bid_price : ℚ := 0
  last_best_ask_price : ℚ := 0
  last_best_bid_qty : ℤ := 0
  last_best_ask_qty : ℤ := 0
  hidden_sell_order_refill_count : ℕ := 0
  hidden_buy_order_refill_count : ℕ := 0
  large_trade_threshold : Option ℚ := none
  last_trade_sign : ℤ := 0
  trade_volume_window : List ℤ := []
deriving DecidableEq

def initInstrumentState : InstrumentState := {}

/-- `np.percentile(l, q)` with numpy's default linear interpolation, used by
the dynamic large-trade fallback. -/
def np_percentile (l : List ℤ) (q : ℚ) : ℚ :=
  let s := l.insertionSort (fun a b => a ≤ b)
  match s with
  | [] => 0
  | _ =>
    let idx : ℚ := q / 100 * ((s.length : ℚ) - 1)
    let lo := (⌊idx⌋).toNat
    let frac := idx - (lo : ℚ)
    let a := ((s.getD lo 0 : ℤ) : ℚ)
    let b := ((s.getD (lo + 1) (s.getD lo 0) : ℤ) : ℚ)
    a + frac * (b - a)

/-- `FeatureEnricher._classify_trade_sign`: +1 buy, -1 sell, 0 unknown. -/
def _classify_trade_sign (tick : TickData) (state : InstrumentState) : ℤ :=
  let last_tick := state.last_tick
  match tick.last_price with
  | none => state.last_trade_sign
  | some lp =>
    let cur_bid_px : ℚ :=
      match tick.depth with
      | some d => match d.buy.head? with
        | some lvl => lvl.price
        | none => state.last_best_bid_price
      | none => state.last_best_bid_price
    let cur_ask_px : ℚ :=
      match tick.depth with
      | some d => match d.sell.head? with
        | some lvl => lvl.price
        | none => state.last_best_ask_price
      | none => state.last_best_ask_price
    let tickRule : Option ℤ :=
      match last_tick with
      | some lt => match lt.last_price with
        | some plp =>
          if plp < lp then some 1 else if lp < plp then some (-1) else none
        | none => none
      | none => none
    if 0 < cur_bid_px ∧ 0 < cur_ask_px then
      let locked := cur_ask_px = cur_bid_px
      let crossed := cur_ask_px < cur_bid_px
      if locked ∨ crossed then
        match tickRule with
        | some s => s
        | none => state.last_trade_sign
      else if cur_ask_px ≤ lp then 1
      else if lp ≤ cur_bid_px then -1
      else
        match tickRule with
        | some s => s
        | none => state.last_trade_sign
    else
      match tickRule with
      | some s => s
      | none => state.last_trade_sign

/-- `FeatureEnricher.enrich_tick`: compute the enrichment features of one tick
and update the per-instrument state. -/
def enrich_tick (state : InstrumentState) (tick : TickData) :
    EnrichedTick × InstrumentState :=
  let last_tick := state.last_tick
  let tick_volume : ℤ :=
    match last_tick with
    | some lt =>
      match tick.volume_traded, lt.volume_traded with
      | some cv, some pv => if cv - pv < 0 then 0 else cv - pv
      | _, _ => 0
    | none => 0
  let trade_sign := _classify_trade_sign tick state
  let large : Bool × List ℤ :=
    if 0 < tick_volume then
      match state.large_trade_threshold with
      | some threshold =>
        (decide (threshold ≤ (tick_volume : ℚ)), state.trade_volume_window)
      | none =>
        let window := state.trade_volume_window
        let flagged :=
          if 200 < window.length then
            decide (np_percentile window 99 ≤ (tick_volume : ℚ))
          else false
        (flagged, pushMax 1000 window tick_volume)
    else (false, state.trade_volume_window)
  let is_large_trade := large.1
  let state := { state with trade_volume_window := large.2 }
  let absorb : Bool × Bool × InstrumentState :=
    match tick.depth with
    | some d =>
      match d.buy.head?, d.sell.head? with
      | some best_bid, some best_ask =>
        if 0 < tick_volume then
          let state :=
            if best_ask.price ≠ state.last_best_ask_price then
              { state with hidden_sell_order_refill_count := 0 }
            else if trade_sign = 1 ∧ tick.last_price = some state.last_best_ask_price then
              if state.last_best_ask_qty - tick_volume < best_ask.quantity then
                { state with hidden_sell_order_refill_count :=
                    state.hidden_sell_order_refill_count + 1 }
              else state
            else state
          let state :=
            if best_bid.price ≠ state.last_best_bid_price then
              { state with hidden_buy_order_refill_count := 0 }
            else if trade_sign = -1 ∧ tick.last_price = some state.last_best_bid_price then
              if state.last_best_bid_qty - tick_volume < best_bid.quantity then
                { state with hidden_buy_order_refill_count :=
                    state.hidden_buy_order_refill_count + 1 }
              else state
            else state
          (decide (ICEBERG_CONFIRMATION_THRESHOLD ≤ state.hidden_buy_order_refill_count),
           decide (ICEBERG_CONFIRMATION_THRESHOLD ≤ state.hidden_sell_order_refill_count),
           state)
        else (false, false, state)
      | _, _ => (false, false, state)
    | none => (false, false, state)
  let is_buy_absorption := absorb.1
  let is_sell_absorption := absorb.2.1
  let state := absorb.2.2
  let enriched_tick : EnrichedTick := {
    timestamp := tick.timestamp
    instrument_token := tick.instrument_token
    last_price := tick.last_price
    average_traded_price := tick.average_traded_price
    volume_traded := tick.volume_traded
    depth := tick.depth
    tick_volume := tick_volume
    trade_sign := trade_sign
    is_large_trade := is_large_trade
    is_buy_absorption := is_buy_absorption
    is_sell_absorption := is_sell_absorption }
  let state := { state with last_tick := some tick, last_trade_sign := trade_sign }
  let state :=
    match tick.depth with
    | some d =>
      let state :=
        match d.buy.head? with
        | some lvl => { state with last_best_bid_price := lvl.price,
                                   last_best_bid_qty := lvl.quantity }
        | none => state
      match d.sell.head? with
      | some lvl => { state with last_best_ask_price := lvl.price,
                                 last_best_ask_qty := lvl.quantity }
      | none => state
    | none => state
  (enriched_tick, state)

/-! ## Alert engine (src/core/alert_engine.py with src/common/strategy_config.py) -/

def PATH_REGIME_THRESHOLD : ℚ := 1 / 4
def COST_REGIME_THRESHOLD : ℚ := 1 / 4

inductive Position : Type where
  | NONE
  | LONG
  | SHORT
deriving DecidableEq

/-- Trade lifecycle state per (stock, interval). -/
structure TradeState : Type where
  position : Position := Position.NONE
  entry_price : ℚ := 0
  peak_price : ℚ := 0
  mae_price : ℚ := 0
deriving DecidableEq

/-- Persistence history for the 3-bar handshake rule. -/
structure RegimeHist : Type where
  cost : List ℚ := []
  path : List ℚ := []
deriving DecidableEq

/-- `AlertEngine._update_regime`: push a sample into the 3-sample ring and
return +1 or −1 only if intent persists for 3 bars. -/
def _update_regime (hist : List ℚ) (value threshold : ℚ) : List ℚ × ℤ :=
  let hist := pushMax 3 hist value
  if hist.length < 3 then (hist, 0)
  else if ∀ v ∈ hist, threshold < v then (hist, 1)
  else if ∀ v ∈ hist, v < -threshold then (hist, -1)
  else (hist, 0)

inductive EventType : Type where
  | LONG_ENTRY
  | SHORT_ENTRY
  | LONG_EXIT
  | SHORT_EXIT
deriving DecidableEq

def isExitEvent (e : EventType) : Bool :=
  match e with
  | EventType.LONG_EXIT => true
  | EventType.SHORT_EXIT => true
  | _ => false

def isLongEvent (e : EventType) : Bool :=
  match e with
  | EventType.LONG_ENTRY => true
  | EventType.LONG_EXIT => true
  | _ => false

/-- Round-half-even on integers of a scaled rational (Python's banker's
rounding, idealized over exact rationals). -/
def round_half_even (q : ℚ) : ℤ :=
  let f := ⌊q⌋
  let frac := q - (f : ℚ)
  if frac < 1 / 2 then f
  else if 1 / 2 < frac then f + 1
  else if Even f then f else f + 1

/-- Python `round(q, 4)`. -/
def py_round4 (q : ℚ) : ℚ := ((round_half_even (q * 10000) : ℤ) : ℚ) / 10000

/-- A signal event as logged by `AlertEngine._fire_alert` (logging-only
fields such as authority, reason and the indicator echo are omitted). -/
structure SignalEvent : Type where
  event_time : ℕ
  event_type : EventType
  side : String
  price : ℚ
  vwap : Option ℚ
  cost_regime : ℤ
  path_regime : ℤ
  accept_regime : ℚ
  entry_price : ℚ
  peak_price : ℚ
  mfe_pct : Option ℚ
  mae_pct : Option ℚ
  pnl_pct : Option ℚ
deriving DecidableEq

/-- `AlertEngine._fire_alert`: build the standardized signal event. -/
def _fire_alert (bar : BarData) (event_type : EventType) (cost path : ℤ)
    (accept : ℚ) (state : TradeState) : SignalEvent :=
  let is_exit := isExitEvent event_type
  let mfe_mae_pnl : Option ℚ × Option ℚ × Option ℚ :=
    if is_exit ∧ 0 < state.entry_price then
      let entry := state.entry_price
      if isLongEvent event_type then
        (some ((state.peak_price - entry) / entry),
         some ((state.mae_price - entry) / entry),
         some ((bar.close - entry) / entry))
      else
        (some ((entry - state.peak_price) / entry),
         some ((entry - state.mae_price) / entry),
         some ((entry - bar.close) / entry))
    else (none, none, none)
  { event_time := bar.timestamp
    event_type := event_type
    side := if isLongEvent event_type then "LONG" else "SHORT"
    price := bar.close
    vwap := bar.session_vwap
    cost_regime := cost
    path_regime := path
    accept_regime := accept
    entry_price := if is_exit then state.entry_price else bar.close
    peak_price := if is_exit then state.peak_price else bar.high
    mfe_pct := mfe_mae_pnl.1.map (fun v => py_round4 (v * 100))
    mae_pct := mfe_mae_pnl.2.1.map (fun v => py_round4 (v * 100))
    pnl_pct := mfe_mae_pnl.2.2.map (fun v => py_round4 (v * 100)) }

/-- The COST sensor's raw sample of a bar: `divergence.price_vs_obv`. -/
def rawCostOf (bar : BarData) : ℚ :=
  match dictGet? bar.raw_scores "divergence" with
  | some (RawVal.dmap div) =>
    match dictGet? div "price_vs_obv" with
    | some q => q
    | none => 0
  | _ => 0

/-- The PATH sensor's raw sample of a bar: `structure_ratio`. -/
def rawPathOf (bar : BarData) : ℚ := getNum bar.raw_scores "structure_ratio" 0

/-- The ACCEPTANCE sensor of a bar: `raw_scores.get("price_acceptance", 0)`. -/
def acceptOf (bar : BarData) : ℚ := getNum bar.raw_scores "price_acceptance" 0

/-- `AlertEngine.run_logic` on one finalized bar: returns the updated trade
state, the updated regime history, and the emitted signal event if any. -/
def run_logic (state : TradeState) (h : RegimeHist) (bar : BarData) :
    TradeState × RegimeHist × Option SignalEvent :=
  let costStep := _update_regime h.cost (rawCostOf bar) COST_REGIME_THRESHOLD
  let pathStep := _update_regime h.path (rawPathOf bar) PATH_REGIME_THRESHOLD
  let h' : RegimeHist := { cost := costStep.1, path := pathStep.1 }
  let cost := costStep.2
  let path := pathStep.2
  let accept := acceptOf bar
  let state :=
    match state.position with
    | Position.LONG =>
      { state with peak_price := max state.peak_price bar.high,
                   mae_price := min state.mae_price bar.low }
    | Position.SHORT =>
      { state with peak_price := min state.peak_price bar.low,
                   mae_price := max state.mae_price bar.high }
    | Position.NONE => state
  match state.position with
  | Position.NONE =>
    if cost = 1 ∧ accept = 1 ∧ path ≠ -1 then
      let state := { state with position := Position.LONG,
                                entry_price := bar.close,
                                peak_price := bar.high,
                                mae_price := bar.low }
      (state, h', some (_fire_alert bar EventType.LONG_ENTRY cost path accept state))
    else if cost = -1 ∧ accept = -1 ∧ path ≠ 1 then
      let state := { state with position := Position.SHORT,
                                entry_price := bar.close,
                                peak_price := bar.low,
                                mae_price := bar.high }
      (state, h', some (_fire_alert bar EventType.SHORT_ENTRY cost path accept state))
    else (state, h', none)
  | Position.LONG =>
    if cost < 1 ∨ path < 0 then
      let ev := _fire_alert bar EventType.LONG_EXIT cost path accept state
      ({ state with position := Position.NONE, entry_price := 0,
                    peak_price := 0, mae_price := 0 }, h', some ev)
    else (state, h', none)
  | Position.SHORT =>
    if -1 < cost ∨ 0 < path then
      let ev := _fire_alert bar EventType.SHORT_EXIT cost path accept state
      ({ state with position := Position.NONE, entry_price := 0,
                    peak_price := 0, mae_price := 0 }, h', some ev)
    else (state, h', none)

/-! ## Spec-side transition table (§4.6 of the spec, stated from its words,
for the refinement claim about the signal state machine) -/

/-- The state-machine transition table exactly as written in the spec:
given the previous position and the sensor readings of the finalized bar,
the next position and the emitted event (if any). -/
def spec_transition (pos : Position) (cost : ℤ) (accept : ℚ) (path : ℤ) :
    Position × Option EventType :=
  match pos with
  | Position.NONE =>
    if cost = 1 ∧ accept = 1 ∧ path ≠ -1 then
      (Position.LONG, some EventType.LONG_ENTRY)
    else if cost = -1 ∧ accept = -1 ∧ path ≠ 1 then
      (Position.SHORT, some EventType.SHORT_ENTRY)
    else (Position.NONE, none)
  | Position.LONG =>
    if cost < 1 ∨ path < 0 then (Position.NONE, some EventType.LONG_EXIT)
    else (Position.LONG, none)
  | Position.SHORT =>
    if -1 < cost ∨ 0 < path then (Position.NONE, some EventType.SHORT_EXIT)
    else (Position.SHORT, none)

/-! ## Concrete inputs used by witnesses and counterexamples -/

/-- A LONG position entered at 100 with peak 102 and trough 99.5. -/
def C4state : TradeState :=
  { position := Position.LONG, entry_price := 100, peak_price := 102,
    mae_price := 199 / 2 }

/-- Empty regime history: the COST ring is not yet full, so COST = 0 < +1 and
the LONG exit fires. -/
def C4hist : RegimeHist := {}

/-- The 5m exit bar: close 101 within [low, high] = [100, 101.5]. -/
def C4bar : BarData :=
  { timestamp := 0, interval_min := 5, open_ := 100, high := 203 / 2,
    low := 100, close := 101, volume := 0, bar_vwap := 0 }

/-- The expected LONG_EXIT report: mfe 2%, mae −0.5%, pnl 1%. -/
def C4event : SignalEvent :=
  { event_time := 0, event_type := EventType.LONG_EXIT, side := "LONG",
    price := 101, vwap := none, cost_regime := 0, path_regime := 0,
    accept_regime := 0, entry_price := 100, peak_price := 102,
    mfe_pct := some 2, mae_pct := some (-(1 / 2)), pnl_pct := some 1 }

/-- Two ticks inside one 1-minute bucket whose session price×volume jumps
while cumulative volume rises by 1, then a bucket-rolling tick: the finalized
bar's VWAP (200) escapes its price range [100, 100]. -/
def C5ticks : List EnrichedTick :=
  [{ timestamp := 0, instrument_token := 1, last_price := some 100,
     average_traded_price := some 100, volume_traded := some 10,
     tick_volume := 10 },
   { timestamp := 30, instrument_token := 1, last_price := some 100,
     average_traded_price := some 200, volume_traded := some 11 },
   { timestamp := 60, instrument_token := 1, last_price := some 100 }]

/-- Three 1-minute ticks: the second finalized bar closes at 105, above the
first bar's high of 100 — the spec's +1 acceptance situation. -/
def C2ticks : List EnrichedTick :=
  [{ timestamp := 0, instrument_token := 1, last_price := some 100 },
   { timestamp := 60, instrument_token := 1, last_price := some 105 },
   { timestamp := 120, instrument_token := 1, last_price := some 105 }]

/-- A default bar used only for indexing into concrete bar lists. -/
def dfltBar : BarData :=
  { timestamp := 0, interval_min := 1, open_ := 0, high := 0, low := 0,
    close := 0, volume := 0, bar_vwap := 0 }

/-- Three time-ordered 1-minute ticks producing two finalized bars. -/
def C8ticks : List EnrichedTick :=
  [{ timestamp := 0, instrument_token := 1, last_price := some 100 },
   { timestamp := 60, instrument_token := 1, last_price := some 100 },
   { timestamp := 120, instrument_token := 1, last_price := some 100 }]

/-- A bare 1-minute bar at close `c` carrying obv and smoothed-RSI scores. -/
def mkDivBar (ts : ℕ) (c obv : ℚ) : BarData :=
  { timestamp := ts, interval_min := 1, open_ := c, high := c, low := c,
    close := c, volume := 10, bar_vwap := c,
    raw_scores := [("obv", RawVal.num obv), ("rsi_smoothed", RawVal.num 70)] }

/-- A 5-bar 1-minute history for the divergence scorer. -/
def C10hist : List BarData :=
  [mkDivBar 0 100 0, mkDivBar 60 101 1, mkDivBar 120 102 2,
   mkDivBar 180 103 3, mkDivBar 240 104 4]

/-- The current bar scored against `C10hist`. -/
def C10bar : BarData := mkDivBar 300 110 50

/-- Seven 1-minute ticks with varying closes: the six finalized bars carry
distinct `rsi` values while the `rsi_smoothed`/`mfi_smoothed`/
`cvd_5m_smoothed` keys stay absent. -/
def C6ticks : List EnrichedTick :=
  [{ timestamp := 0, instrument_token := 1, last_price := some 100 },
   { timestamp := 60, instrument_token := 1, last_price := some 102 },
   { timestamp := 120, instrument_token := 1, last_price := some 101 },
   { timestamp := 180, instrument_token := 1, last_price := some 103 },
   { timestamp := 240, instrument_token := 1, last_price := some 102 },
   { timestamp := 300, instrument_token := 1, last_price := some 104 },
   { timestamp := 360, instrument_token := 1, last_price := some 104 }]

/-! ## Invariant predicates -/

/-- Every `raw_scores` key the aggregator ever writes (`_scores_block`,
`_recalc_scores`, `_structure_flags_block`). -/
def aggWrittenKeys : List String :=
  ["bar_delta", "large_buy_volume", "large_sell_volume",
   "passive_buy_volume", "passive_sell_volume",
   "cvd_5m", "cvd_10m", "cvd_30m", "rsi", "mfi", "obv", "lvc_delta",
   "clv", "clv_smoothed", "divergence",
   "HH", "HL", "LH", "LL", "inside", "outside", "structure"]

/-- A key no aggregator code path writes. -/
def SafeKey (k : String) : Prop := k ∉ aggWrittenKeys

/-- The key `k` is absent from a `raw_scores` dict. -/
def keyAbsent (k : String) (d : RawScores) : Prop := dictGet? d k = none

/-- No bar held by the aggregator carries the key `k`. -/
def KeyAbsentState (k : String) (st : AggState) : Prop :=
  (∀ b ∈ st.bar_history, keyAbsent k b.raw_scores) ∧
  (∀ b, st.building_bar = some b → keyAbsent k b.raw_scores)

/-- A well-formed bar: low ≤ open ≤ high, low ≤ close ≤ high, volume ≥ 0. -/
def WFbar (b : BarData) : Prop :=
  b.low ≤ b.open_ ∧ b.open_ ≤ b.high ∧ b.low ≤ b.close ∧ b.close ≤ b.high ∧
  0 ≤ b.volume

/-- Every bar held by the aggregator is well-formed. -/
def WFState (st : AggState) : Prop :=
  (∀ b ∈ st.bar_history, WFbar b) ∧
  (∀ b, st.building_bar = some b → WFbar b)

/-- Timestamp invariant of an aggregator run: emitted bars are strictly
time-ordered, all older than the building bar, whose bucket cannot exceed
the bucket of the last processed timestamp `lb`. -/
def TSInv (im : ℕ) (st : AggState) (bs : List BarData) (lb : ℕ) : Prop :=
  st.interval_min = im ∧
  List.Chain' (· < ·) (bs.map (fun b => b.timestamp)) ∧
  ((st.building_bar = none ∧ bs = []) ∨
    (∃ b, st.building_bar = some b ∧
      (∀ x ∈ bs, x.timestamp < b.timestamp) ∧
      b.timestamp ≤ bucket_ts im lb))

/-! ## Helper lemmas -/

theorem dictGet?_dictSet {α : Type} (d : List (String × α)) (k k' : String)
    (v : α) :
    dictGet? (dictSet d k v) k' = if k = k' then some v else dictGet? d k' := by
  induction d with
  | nil =>
    by_cases h : k = k' <;> simp [dictGet?, dictSet, h]
  | cons p rest ih =>
    obtain ⟨k0, v0⟩ := p
    by_cases h0 : k0 = k
    · subst h0
      by_cases h : k0 = k' <;> simp [dictGet?, dictSet, h]
    · by_cases h : k0 = k'
      · subst h
        have hk : k ≠ k0 := fun hc => h0 hc.symm
        simp [dictGet?, dictSet, h0, hk]
      · simp [dictGet?, dictSet, h0, h, ih]

theorem length_pushMax {α : Type} (m : ℕ) (l : List α) (x : α) :
    (pushMax m l x).length = min m (l.length + 1) := by
  simp only [pushMax]
  split_ifs with h <;>
    simp only [List.length_drop, List.length_append, List.length_cons,
      List.length_nil] at h ⊢ <;>
    omega

theorem mem_pushMax {α : Type} {m : ℕ} {l : List α} {x a : α}
    (h : a ∈ pushMax m l x) : a ∈ l ∨ a = x := by
  simp only [pushMax] at h
  split_ifs at h with hm
  · have := List.drop_subset _ _ h
    simpa using this
  · simpa using h

theorem pushMax_of_length_lt {α : Type} (m : ℕ) (l : List α) (x : α)
    (h : l.length + 1 ≤ m) : pushMax m l x = l ++ [x] := by
  simp only [pushMax]
  rw [if_neg]
  simp only [List.length_append, List.length_cons, List.length_nil]
  omega

theorem bucket_ts_mono (im : ℕ) {a b : ℕ} (h : a ≤ b) :
    bucket_ts im a ≤ bucket_ts im b := by
  unfold bucket_ts
  have hm : a / 60 ≤ b / 60 := Nat.div_le_div_right h
  apply Nat.mul_le_mul_right
  have hxa : a / 60 % 60 / im * im ≤ a / 60 % 60 := Nat.div_mul_le_self _ _
  have hxb : b / 60 % 60 / im * im ≤ b / 60 % 60 := Nat.div_mul_le_self _ _
  by_cases hq : a / 60 / 60 = b / 60 / 60
  · have hr : a / 60 % 60 ≤ b / 60 % 60 := by omega
    have h2 : a / 60 % 60 / im ≤ b / 60 % 60 / im := Nat.div_le_div_right hr
    have h3 : a / 60 % 60 / im * im ≤ b / 60 % 60 / im * im :=
      Nat.mul_le_mul_right _ h2
    omega
  · have hq' : a / 60 / 60 < b / 60 / 60 := by
      rcases Nat.lt_or_ge (a / 60 / 60) (b / 60 / 60) with hlt | hge
      · exact hlt
      · exact absurd (Nat.le_antisymm (Nat.div_le_div_right hm) hge) hq
    omega

theorem bucket_ts_run (im ts : ℕ) :
    bucket_ts im ts = (ts / 60 - ts / 60 % 60 + ts / 60 % 60 / im * im) * 60 :=
  rfl

theorem dictGet?_dictSet_ne {α : Type} (d : List (String × α)) (k k' : String)
    (v : α) (h : k ≠ k') :
    dictGet? (dictSet d k v) k' = dictGet? d k' := by
  rw [dictGet?_dictSet, if_neg h]

theorem keyAbsent_dictSet {d : RawScores} {k k' : String} {v : RawVal}
    (hd : keyAbsent k d) (hk : k' ≠ k) : keyAbsent k (dictSet d k' v) := by
  unfold keyAbsent at hd ⊢
  rw [dictGet?_dictSet_ne _ _ _ _ hk, hd]

theorem SafeKey_ne {k : String} (hk : SafeKey k) (k' : String)
    (hmem : k' ∈ aggWrittenKeys) : k' ≠ k :=
  fun he => hk (he ▸ hmem)

theorem scores_block_keyAbsent {k : String} (hk : SafeKey k) (s : RawScores)
    (t : EnrichedTick) (h : keyAbsent k s) : keyAbsent k (_scores_block s t) := by
  unfold _scores_block
  split_ifs <;>
    first
      | exact h
      | (repeat' apply keyAbsent_dictSet) <;>
          first | exact h | exact SafeKey_ne hk _ (by decide)

theorem structure_flags_keyAbsent {k : String} (hk : SafeKey k)
    (rs : RawScores) (prev? : Option BarData) (fb : BarData)
    (h : keyAbsent k rs) :
    keyAbsent k (_structure_flags_block rs prev? fb) := by
  unfold _structure_flags_block
  cases prev? <;>
    (repeat' apply keyAbsent_dictSet) <;>
      first | exact h | exact SafeKey_ne hk _ (by decide)

theorem vwap_block_props (psv : Option ℚ) (pcv : Option ℤ) (btpv : ℚ)
    (bar : BarData) (t : EnrichedTick) (lp : ℚ) :
    (_vwap_block psv pcv btpv bar t lp).2.timestamp = bar.timestamp ∧
    (_vwap_block psv pcv btpv bar t lp).2.interval_min = bar.interval_min ∧
    (_vwap_block psv pcv btpv bar t lp).2.open_ = bar.open_ ∧
    (_vwap_block psv pcv btpv bar t lp).2.high = bar.high ∧
    (_vwap_block psv pcv btpv bar t lp).2.low = bar.low ∧
    (_vwap_block psv pcv btpv bar t lp).2.close = bar.close ∧
    (_vwap_block psv pcv btpv bar t lp).2.raw_scores = bar.raw_scores ∧
    bar.volume ≤ (_vwap_block psv pcv btpv bar t lp).2.volume := by
  unfold _vwap_block
  cases hvt : t.volume_traded <;> cases hatp : t.average_traded_price <;>
    simp only []
  · simp
  · simp
  · simp
  · cases hpsv : psv <;> cases hpcv : pcv <;>
      simp only [] <;> split_ifs <;> simp <;> omega

theorem recalc_none (st : AggState) (h : st.building_bar = none) :
    _recalculate_bar_features st = st := by
  simp [_recalculate_bar_features, h]

theorem recalc_scores_keyAbsent {k : String} (hk : SafeKey k)
    (st : AggState) (bar : BarData) (h : keyAbsent k bar.raw_scores) :
    keyAbsent k (_recalc_scores st bar) := by
  unfold _recalc_scores
  apply keyAbsent_dictSet _ (SafeKey_ne hk _ (by decide))
  apply keyAbsent_dictSet _ (SafeKey_ne hk _ (by decide))
  apply keyAbsent_dictSet _ (SafeKey_ne hk _ (by decide))
  apply keyAbsent_dictSet _ (SafeKey_ne hk _ (by decide))
  apply keyAbsent_dictSet _ (SafeKey_ne hk _ (by decide))
  apply keyAbsent_dictSet _ (SafeKey_ne hk _ (by decide))
  apply keyAbsent_dictSet _ (SafeKey_ne hk _ (by decide))
  apply keyAbsent_dictSet _ (SafeKey_ne hk _ (by decide))
  apply keyAbsent_dictSet _ (SafeKey_ne hk _ (by decide))
  apply keyAbsent_dictSet _ (SafeKey_ne hk _ (by decide))
  exact h

theorem recalc_some (st : AggState) (bar : BarData)
    (h : st.building_bar = some bar) :
    _recalculate_bar_features st =
      { st with
        building_bar := some { bar with raw_scores := _recalc_scores st bar } } := by
  simp only [_recalculate_bar_features, h]

theorem start_new_props (st : AggState) (bts : ℕ) (t : EnrichedTick) :
    (_start_new_bar st bts t).bar_history = st.bar_history ∧
    (_start_new_bar st bts t).interval_min = st.interval_min ∧
    ∃ b, (_start_new_bar st bts t).building_bar = some b ∧
      b.timestamp = bts ∧ b.interval_min = st.interval_min ∧
      b.open_ = t.last_price.getD 0 ∧
      b.high = t.last_price.getD 0 ∧ b.low = t.last_price.getD 0 ∧
      b.close = t.last_price.getD 0 ∧ b.volume = 0 ∧
      (∀ k, SafeKey k → keyAbsent k b.raw_scores) := by
  unfold _start_new_bar
  rw [recalc_some _ _ rfl]
  exact ⟨rfl, rfl, _, rfl, rfl, rfl, rfl, rfl, rfl, rfl, rfl,
    by exact fun k hk => recalc_scores_keyAbsent hk _ _ rfl⟩

theorem update_none (st : AggState) (t : EnrichedTick)
    (h : st.building_bar = none) : _update_bar_data st t = st := by
  simp [_update_bar_data, h]

theorem update_some (st : AggState) (t : EnrichedTick) (bar : BarData)
    (h : st.building_bar = some bar) :
    ∃ b', (_update_bar_data st t).building_bar = some b' ∧
      (_update_bar_data st t).bar_history = st.bar_history ∧
      (_update_bar_data st t).interval_min = st.interval_min ∧
      b'.timestamp = bar.timestamp ∧
      b'.interval_min = bar.interval_min ∧
      b'.open_ = bar.open_ ∧
      b'.high = (if bar.high < t.last_price.getD 0 then t.last_price.getD 0
        else bar.high) ∧
      b'.low = (if t.last_price.getD 0 < bar.low then t.last_price.getD 0
        else bar.low) ∧
      b'.close = t.last_price.getD 0 ∧
      bar.volume ≤ b'.volume ∧
      (∀ k, SafeKey k → keyAbsent k bar.raw_scores →
        keyAbsent k b'.raw_scores) := by
  simp only [_update_bar_data, h]
  rw [recalc_some _ _ rfl]
  obtain ⟨hts, him, hop, hhi, hlo, hcl, hrs, hvol⟩ :=
    vwap_block_props st.prev_session_pv st.prev_cum_vol
      st.bar_total_price_volume
      { bar with
        high := if bar.high < t.last_price.getD 0 then t.last_price.getD 0
          else bar.high
        low := if t.last_price.getD 0 < bar.low then t.last_price.getD 0
          else bar.low
        close := t.last_price.getD 0
        session_vwap := t.average_traded_price }
      t (t.last_price.getD 0)
  refine ⟨_, rfl, rfl, rfl, hts, him, hop, hhi, hlo, hcl, hvol,
    fun k hk hpa => ?_⟩
  apply recalc_scores_keyAbsent hk
  apply scores_block_keyAbsent hk
  show keyAbsent k (_vwap_block _ _ _ _ _ _).2.raw_scores
  rw [hrs]
  exact hpa

theorem finalize_state_block_props (st : AggState) (fb : BarData) :
    (_finalize_state_block st fb).bar_history = st.bar_history ∧
    (_finalize_state_block st fb).interval_min = st.interval_min ∧
    (_finalize_state_block st fb).building_bar = st.building_bar := by
  unfold _finalize_state_block
  dsimp only
  refine ⟨?_, ?_, ?_⟩ <;> split_ifs <;> rfl

theorem finalize_none (st : AggState) (h : st.building_bar = none) :
    _finalize_bar st = (st, none) := by
  unfold _finalize_bar
  rw [recalc_none st h]
  simp [h]

theorem finalize_some (st : AggState) (bar : BarData)
    (h : st.building_bar = some bar) :
    ∃ st' fb, _finalize_bar st = (st', some fb) ∧
      fb.timestamp = bar.timestamp ∧ fb.interval_min = bar.interval_min ∧
      fb.open_ = bar.open_ ∧ fb.high = bar.high ∧ fb.low = bar.low ∧
      fb.close = bar.close ∧ fb.volume = bar.volume ∧
      st'.building_bar = none ∧ st'.interval_min = st.interval_min ∧
      st'.bar_history = pushMax 200 st.bar_history fb ∧
      (∀ k, SafeKey k → keyAbsent k bar.raw_scores →
        keyAbsent k fb.raw_scores) := by
  unfold _finalize_bar
  rw [recalc_some st bar h]
  dsimp only
  obtain ⟨hh, hi, _⟩ := finalize_state_block_props
    { st with
      building_bar := some { bar with raw_scores := _recalc_scores st bar } }
    { bar with raw_scores := _recalc_scores st bar }
  refine ⟨_, _, rfl, rfl, rfl, rfl, rfl, rfl, rfl, rfl, rfl, hi, ?_,
    fun k hk hpa => ?_⟩
  · rw [hh]
  · exact structure_flags_keyAbsent hk _ _ _ (recalc_scores_keyAbsent hk _ _ hpa)

/-! ## Claim theorems -/

/-- C1: On each finalized bar of a given (stock, interval), the signal state
machine of `AlertEngine.run_logic` transitions exactly per the spec's table:
from NONE, COST=+1 ∧ ACCEPTANCE=+1 ∧ PATH≠−1 moves to LONG emitting exactly
one LONG_ENTRY (symmetrically to SHORT); from LONG, COST<+1 ∨ PATH<0 moves to
NONE emitting exactly one LONG_EXIT (symmetrically from SHORT); otherwise the
position is unchanged and no event is emitted. -/
theorem C1_signal_state_machine (state : TradeState) (h : RegimeHist)
    (bar : BarData) :
    ((run_logic state h bar).1.position,
      ((run_logic state h bar).2.2).map (fun e => e.event_type)) =
    spec_transition state.position
      (_update_regime h.cost (rawCostOf bar) COST_REGIME_THRESHOLD).2
      (acceptOf bar)
      (_update_regime h.path (rawPathOf bar) PATH_REGIME_THRESHOLD).2 := by
  obtain ⟨pos, ep, pp, mp⟩ := state
  cases pos <;>
    simp only [run_logic, spec_transition] <;>
    split_ifs <;>
    rfl

/-- C3: for each sensor ring of `AlertEngine._update_regime` (3-sample deque),
the regime value after appending a sample is 0 while the ring holds fewer
than 3 samples; once full it is +1 iff all three samples exceed +threshold,
−1 iff all three are below −threshold, and 0 otherwise; in particular after
a +1 regime a single sample at or below the threshold resets the regime to 0
on that bar. -/
theorem C3_regime_handshake (hist : List ℚ) (v t : ℚ) (ht : 0 ≤ t) :
    ((_update_regime hist v t).1.length < 3 → (_update_regime hist v t).2 = 0) ∧
    (¬ (_update_regime hist v t).1.length < 3 →
      (((_update_regime hist v t).2 = 1 ↔
          ∀ x ∈ (_update_regime hist v t).1, t < x) ∧
       ((_update_regime hist v t).2 = -1 ↔
          ∀ x ∈ (_update_regime hist v t).1, x < -t) ∧
       ((_update_regime hist v t).2 = 0 ↔
          (¬ ∀ x ∈ (_update_regime hist v t).1, t < x) ∧
          (¬ ∀ x ∈ (_update_regime hist v t).1, x < -t)))) ∧
    ((_update_regime hist v t).2 = 1 → ∀ v', v' ≤ t →
      (_update_regime (_update_regime hist v t).1 v' t).2 = 0) := by
  have hlen3 : (pushMax 3 hist v).length = min 3 (hist.length + 1) :=
    length_pushMax 3 hist v
  by_cases hlt : (pushMax 3 hist v).length < 3
  · unfold _update_regime
    rw [if_pos hlt]
    refine ⟨fun _ => rfl, fun hc => absurd hlt hc, fun h1 => ?_⟩
    exact absurd h1 (by norm_num)
  · have h3 : (pushMax 3 hist v).length = 3 := by omega
    obtain ⟨a, b, c, habc⟩ := List.length_eq_three.mp h3
    have hupd : _update_regime hist v t =
        (pushMax 3 hist v,
          if ∀ x ∈ pushMax 3 hist v, t < x then 1
          else if ∀ x ∈ pushMax 3 hist v, x < -t then -1 else 0) := by
      unfold _update_regime
      rw [if_neg hlt]
      split_ifs <;> rfl
    rw [hupd, habc]
    rw [habc] at hlt
    by_cases hall : ∀ x ∈ [a, b, c], t < x
    · have hta : t < a := hall a (by simp)
      have hnb : ¬ ∀ x ∈ [a, b, c], x < -t := by
        intro hc
        have := hc a (by simp)
        linarith
      rw [if_pos hall]
      refine ⟨fun hc => absurd hc hlt, fun _ => ⟨?_, ?_, ?_⟩, fun _ v' hv' => ?_⟩
      · simp [hall]
      · constructor
        · intro hc; exact absurd hc (by norm_num)
        · intro hc; exact absurd hc hnb
      · constructor
        · intro hc; exact absurd hc (by norm_num)
        · rintro ⟨hc, _⟩; exact absurd hall hc
      · have hpush : pushMax 3 [a, b, c] v' = [b, c, v'] := by
          simp [pushMax]
        have htb : t < b := hall b (by simp)
        unfold _update_regime
        rw [hpush]
        rw [if_neg (by simp)]
        rw [if_neg (by
          intro hc
          have := hc v' (by simp)
          linarith)]
        rw [if_neg (by
          intro hc
          have := hc b (by simp)
          linarith)]
    · by_cases hall2 : ∀ x ∈ [a, b, c], x < -t
      · rw [if_neg hall, if_pos hall2]
        refine ⟨fun hc => absurd hc hlt, fun _ => ⟨?_, ?_, ?_⟩,
          fun hc => absurd hc (by norm_num)⟩
        · constructor
          · intro hc; exact absurd hc (by norm_num)
          · intro hc; exact absurd hc hall
        · simp [hall2]
        · constructor
          · intro hc; exact absurd hc (by norm_num)
          · rintro ⟨_, hc⟩; exact absurd hall2 hc
      · rw [if_neg hall, if_neg hall2]
        refine ⟨fun hc => absurd hc hlt, fun _ => ⟨?_, ?_, ?_⟩,
          fun hc => absurd hc (by norm_num)⟩
        · constructor
          · intro hc; exact absurd hc (by norm_num)
          · intro hc; exact absurd hc hall
        · constructor
          · intro hc; exact absurd hc (by norm_num)
          · intro hc; exact absurd hc hall2
        · exact ⟨fun _ => ⟨hall, hall2⟩, fun _ => rfl⟩

/-- Witness for C3 at the engine's concrete threshold 1/4: a full ring of
samples above the threshold yields regime +1. -/
theorem C3_regime_handshake_witness :
    (0 : ℚ) ≤ 1 / 4 ∧
    ¬ (_update_regime [1/2, 1/2] (1/2) (1/4)).1.length < 3 ∧
    ((_update_regime [1/2, 1/2] (1/2) (1/4)).2 = 1 ↔
      ∀ x ∈ (_update_regime [1/2, 1/2] (1/2) (1/4)).1, (1/4 : ℚ) < x) := by
  have h0 : (0 : ℚ) ≤ 1 / 4 := by norm_num
  have hlen : ¬ (_update_regime [1/2, 1/2] (1/2) (1/4)).1.length < 3 := by
    with_unfolding_all decide
  exact ⟨h0, hlen,
    ((C3_regime_handshake [1/2, 1/2] (1/2) (1/4) h0).2.1 hlen).1⟩

/-- C4: for every exit event fired with `entry_price > 0` on a well-formed
bar (low ≤ close ≤ high): for a LONG trade the reported percentages are
`round(((peak − entry)/entry)·100, 4)`, `round(((mae_price − entry)/entry)·100, 4)`
and `round(((close − entry)/entry)·100, 4)` — with peak/mae updated with the
exit bar — and symmetrically for SHORT; in both cases the unrounded values
satisfy mfe ≥ pnl ≥ mae. -/
theorem C4_exit_report (state : TradeState) (h : RegimeHist) (bar : BarData)
    (hentry : 0 < state.entry_price)
    (hlc : bar.low ≤ bar.close) (hch : bar.close ≤ bar.high)
    (e : SignalEvent) (hev : (run_logic state h bar).2.2 = some e) :
    (e.event_type = EventType.LONG_EXIT →
      e.mfe_pct = some (py_round4 ((max state.peak_price bar.high -
        state.entry_price) / state.entry_price * 100)) ∧
      e.mae_pct = some (py_round4 ((min state.mae_price bar.low -
        state.entry_price) / state.entry_price * 100)) ∧
      e.pnl_pct = some (py_round4 ((bar.close - state.entry_price) /
        state.entry_price * 100)) ∧
      (bar.close - state.entry_price) / state.entry_price ≤
        (max state.peak_price bar.high - state.entry_price) / state.entry_price ∧
      (min state.mae_price bar.low - state.entry_price) / state.entry_price ≤
        (bar.close - state.entry_price) / state.entry_price) ∧
    (e.event_type = EventType.SHORT_EXIT →
      e.mfe_pct = some (py_round4 ((state.entry_price -
        min state.peak_price bar.low) / state.entry_price * 100)) ∧
      e.mae_pct = some (py_round4 ((state.entry_price -
        max state.mae_price bar.high) / state.entry_price * 100)) ∧
      e.pnl_pct = some (py_round4 ((state.entry_price - bar.close) /
        state.entry_price * 100)) ∧
      (state.entry_price - bar.close) / state.entry_price ≤
        (state.entry_price - min state.peak_price bar.low) / state.entry_price ∧
      (state.entry_price - max state.mae_price bar.high) / state.entry_price ≤
        (state.entry_price - bar.close) / state.entry_price) := by
  have hdiv : ∀ a b c : ℚ, a ≤ b → 0 < c → a / c ≤ b / c := by
    intro a b c hab hc
    rw [div_eq_mul_inv, div_eq_mul_inv]
    exact mul_le_mul_of_nonneg_right hab (by positivity)
  obtain ⟨pos, ep, pp, mp⟩ := state
  simp only at hentry hlc hch ⊢
  cases pos
  case NONE =>
    simp only [run_logic] at hev
    split_ifs at hev <;>
      (injection hev with he
       subst he
       constructor <;> (intro hET; simp [_fire_alert] at hET))
  case LONG =>
    simp only [run_logic] at hev
    split_ifs at hev
    · injection hev with he
      subst he
      constructor
      · intro _
        have hmax : bar.close ≤ max pp bar.high :=
          le_trans hch (le_max_right pp bar.high)
        have hmin : min mp bar.low ≤ bar.close :=
          le_trans (min_le_right mp bar.low) hlc
        refine ⟨?_, ?_, ?_, ?_, ?_⟩
        · simp [_fire_alert, isExitEvent, isLongEvent, hentry]
        · simp [_fire_alert, isExitEvent, isLongEvent, hentry]
        · simp [_fire_alert, isExitEvent, isLongEvent, hentry]
        · exact hdiv _ _ _ (by linarith) hentry
        · exact hdiv _ _ _ (by linarith) hentry
      · intro hET
        simp [_fire_alert] at hET
  case SHORT =>
    simp only [run_logic] at hev
    split_ifs at hev
    · injection hev with he
      subst he
      constructor
      · intro hET
        simp [_fire_alert] at hET
      · intro _
        have hmin : min pp bar.low ≤ bar.close :=
          le_trans (min_le_right pp bar.low) hlc
        have hmax : bar.close ≤ max mp bar.high :=
          le_trans hch (le_max_right mp bar.high)
        refine ⟨?_, ?_, ?_, ?_, ?_⟩
        · simp [_fire_alert, isExitEvent, isLongEvent, hentry]
        · simp [_fire_alert, isExitEvent, isLongEvent, hentry]
        · simp [_fire_alert, isExitEvent, isLongEvent, hentry]
        · exact hdiv _ _ _ (by linarith) hentry
        · exact hdiv _ _ _ (by linarith) hentry

/-- Witness for C4: the LONG_EXIT fired on `C4bar` reports mfe 2%, mae −0.5%,
pnl 1%, matching the rounded formulas, with mfe ≥ pnl ≥ mae. -/
theorem C4_exit_report_witness :
    (run_logic C4state C4hist C4bar).2.2 = some C4event ∧
    (C4event.mfe_pct = some (py_round4 ((max C4state.peak_price C4bar.high -
        C4state.entry_price) / C4state.entry_price * 100)) ∧
      C4event.mae_pct = some (py_round4 ((min C4state.mae_price C4bar.low -
        C4state.entry_price) / C4state.entry_price * 100)) ∧
      C4event.pnl_pct = some (py_round4 ((C4bar.close - C4state.entry_price) /
        C4state.entry_price * 100)) ∧
      (C4bar.close - C4state.entry_price) / C4state.entry_price ≤
        (max C4state.peak_price C4bar.high - C4state.entry_price) /
          C4state.entry_price ∧
      (min C4state.mae_price C4bar.low - C4state.entry_price) /
          C4state.entry_price ≤
        (C4bar.close - C4state.entry_price) / C4state.entry_price) := by
  have hev : (run_logic C4state C4hist C4bar).2.2 = some C4event := by
    with_unfolding_all decide
  refine ⟨hev, ?_⟩
  exact (C4_exit_report C4state C4hist C4bar
    (by norm_num [C4state]) (by norm_num [C4bar]) (by norm_num [C4bar])
    C4event hev).1 rfl

/-- C7: for every tick processed by `FeatureEnricher.enrich_tick`, the
emitted `tick_volume` equals current minus previous cumulative volume when a
previous one exists and current ≥ previous, and 0 otherwise (first tick,
missing cumulative volume, or regression); hence it is never negative. -/
theorem C7_tick_volume (state : InstrumentState) (tick : TickData) :
    (∀ lt cv pv, state.last_tick = some lt → tick.volume_traded = some cv →
      lt.volume_traded = some pv → pv ≤ cv →
      (enrich_tick state tick).1.tick_volume = cv - pv) ∧
    (∀ lt cv pv, state.last_tick = some lt → tick.volume_traded = some cv →
      lt.volume_traded = some pv → cv < pv →
      (enrich_tick state tick).1.tick_volume = 0) ∧
    (state.last_tick = none → (enrich_tick state tick).1.tick_volume = 0) ∧
    (tick.volume_traded = none → (enrich_tick state tick).1.tick_volume = 0) ∧
    (∀ lt, state.last_tick = some lt → lt.volume_traded = none →
      (enrich_tick state tick).1.tick_volume = 0) ∧
    0 ≤ (enrich_tick state tick).1.tick_volume := by
  have hval : (enrich_tick state tick).1.tick_volume =
      match state.last_tick with
      | some lt =>
        match tick.volume_traded, lt.volume_traded with
        | some cv, some pv => if cv - pv < 0 then 0 else cv - pv
        | _, _ => 0
      | none => 0 := rfl
  refine ⟨?_, ?_, ?_, ?_, ?_, ?_⟩
  · intro lt cv pv hlt hcv hpv hle
    rw [hval, hlt]
    dsimp only
    rw [hcv, hpv]
    dsimp only
    rw [if_neg (by omega)]
  · intro lt cv pv hlt hcv hpv hlt'
    rw [hval, hlt]
    dsimp only
    rw [hcv, hpv]
    dsimp only
    rw [if_pos (by omega)]
  · intro hn; rw [hval, hn]
  · intro hn
    rw [hval, hn]
    cases state.last_tick <;> rfl
  · intro lt hlt hn
    rw [hval, hlt]
    dsimp only
    rw [hn]
    cases tick.volume_traded <;> rfl
  · rw [hval]
    cases state.last_tick with
    | none => dsimp only; omega
    | some lt =>
      dsimp only
      cases tick.volume_traded with
      | none => dsimp only; omega
      | some cv =>
        cases lt.volume_traded with
        | none => dsimp only; omega
        | some pv =>
          dsimp only
          split_ifs <;> omega

/-- Witness for C7: a concrete tick pair with cumulative volumes 10000 then
11500 yields tick_volume 1500. -/
theorem C7_tick_volume_witness :
    (enrich_tick
      { initInstrumentState with last_tick := some { timestamp := 0, instrument_token := 7, last_price := some 100, volume_traded := some 10000 } }
      { timestamp := 1, instrument_token := 7, last_price := some 100, volume_traded := some 11500 }).1.tick_volume = 11500 - 10000 :=
  (C7_tick_volume _ _).1
    { timestamp := 0, instrument_token := 7, last_price := some 100, volume_traded := some 10000 }
    11500 10000 rfl rfl rfl (by norm_num)

/-- C9 counterexample: a tick with a missing `last_price` is not skipped by
the enricher — processing it updates the per-instrument state (the stored
previous tick changes) and still yields an enriched output. -/
theorem C9_enricher_state_changes :
    (enrich_tick initInstrumentState
      { timestamp := 5, instrument_token := 1 }).2.last_tick =
        some { timestamp := 5, instrument_token := 1 } ∧
    (enrich_tick initInstrumentState
      { timestamp := 5, instrument_token := 1 }).2 ≠ initInstrumentState := by
  with_unfolding_all decide

/-- C9 (amended): a tick with a falsy `last_price` (missing or 0) is skipped
by the bar aggregator: `add_tick` emits no bar and leaves the aggregator
state untouched (the enricher itself still processes such ticks, as the
counterexample records). -/
theorem C9_aggregator_skips (st : AggState) (tick : EnrichedTick)
    (h : priceFalsy tick.last_price = true) : add_tick st tick = (st, none) := by
  unfold add_tick
  rw [if_pos h]

/-- Witness for C9's amended claim at a concrete missing-price tick. -/
theorem C9_aggregator_skips_witness :
    add_tick (initAgg 1) { timestamp := 5, instrument_token := 1 } =
      (initAgg 1, none) :=
  C9_aggregator_skips (initAgg 1) { timestamp := 5, instrument_token := 1 } rfl

theorem runAgg_fold_inv (P : AggState × List BarData → Prop)
    (hstep : ∀ acc t, P acc → P (aggStep acc t)) :
    ∀ (ticks : List EnrichedTick) (acc : AggState × List BarData),
      P acc → P (ticks.foldl aggStep acc) := by
  intro ticks
  induction ticks with
  | nil => intro acc h; exact h
  | cons t rest ih => intro acc h; exact ih _ (hstep acc t h)

theorem KeyAbsentState_update {k : String} (hk : SafeKey k) (st : AggState)
    (t : EnrichedTick) (h : KeyAbsentState k st) :
    KeyAbsentState k (_update_bar_data st t) := by
  cases hb : st.building_bar with
  | none => rw [update_none st t hb]; exact h
  | some bar =>
    obtain ⟨b', hb', hhist, hint, hts, him, hop, hhi, hlo, hcl, hvol, hpa⟩ :=
      update_some st t bar hb
    constructor
    · rw [hhist]; exact h.1
    · intro b0 hb0
      have he : b' = b0 := by rw [hb'] at hb0; exact Option.some.inj hb0
      subst he
      exact hpa k hk (h.2 bar hb)

theorem KeyAbsentState_start {k : String} (hk : SafeKey k) (st : AggState)
    (bts : ℕ) (t : EnrichedTick)
    (h : ∀ b ∈ st.bar_history, keyAbsent k b.raw_scores) :
    KeyAbsentState k (_start_new_bar st bts t) := by
  obtain ⟨hh, hi, b, hb, hts, him, hop, hhi, hlo, hcl, hv, hpa⟩ :=
    start_new_props st bts t
  constructor
  · rw [hh]; exact h
  · intro b0 hb0
    have he : b = b0 := by rw [hb] at hb0; exact Option.some.inj hb0
    subst he
    exact hpa k hk

theorem add_tick_keyAbsent {k : String} (hk : SafeKey k) (st : AggState)
    (t : EnrichedTick) (h : KeyAbsentState k st) :
    KeyAbsentState k (add_tick st t).1 ∧
    (∀ b, (add_tick st t).2 = some b → keyAbsent k b.raw_scores) := by
  unfold add_tick
  split_ifs with hf
  · exact ⟨h, by simp⟩
  · cases hb : st.building_bar with
    | none =>
      dsimp only
      refine ⟨KeyAbsentState_update hk _ t (KeyAbsentState_start hk st _ t h.1),
        by simp⟩
    | some bar =>
      by_cases hts : bar.timestamp ≠ bucket_ts st.interval_min t.timestamp
      · dsimp only
        rw [if_pos hts]
        obtain ⟨st', fb, hfin, _, _, _, _, _, _, _, hbn, hi', hhist', hpa'⟩ :=
          finalize_some st bar hb
        rw [hfin]
        dsimp only
        have hfbpa : keyAbsent k fb.raw_scores := hpa' k hk (h.2 bar hb)
        constructor
        · apply KeyAbsentState_update hk
          apply KeyAbsentState_start hk
          rw [hhist']
          intro x hxmem
          rcases mem_pushMax hxmem with hmem | rfl
          · exact h.1 x hmem
          · exact hfbpa
        · intro b0 hb0
          have he : fb = b0 := Option.some.inj hb0
          subst he
          exact hfbpa
      · dsimp only
        rw [if_neg hts]
        exact ⟨KeyAbsentState_update hk st t h, by simp⟩

theorem runAgg_keyAbsent {k : String} (hk : SafeKey k) (im : ℕ)
    (ticks : List EnrichedTick) :
    ∀ b ∈ (runAgg im ticks).2, keyAbsent k b.raw_scores := by
  have hP : KeyAbsentState k (runAgg im ticks).1 ∧
      ∀ x ∈ (runAgg im ticks).2, keyAbsent k x.raw_scores := by
    refine runAgg_fold_inv
      (fun acc => KeyAbsentState k acc.1 ∧ ∀ x ∈ acc.2, keyAbsent k x.raw_scores)
      ?_ ticks (initAgg im, []) ⟨⟨by simp [initAgg], ?_⟩, by simp⟩
    · rintro ⟨st, bs⟩ t ⟨h1, h2⟩
      obtain ⟨ha, hemit⟩ := add_tick_keyAbsent hk st t h1
      refine ⟨ha, ?_⟩
      intro x hx
      rcases List.mem_append.mp hx with hx | hx
      · exact h2 x hx
      · cases he : (add_tick st t).2 with
        | none => rw [he] at hx; simp at hx
        | some fb =>
          rw [he] at hx
          simp only [Option.toList_some, List.mem_singleton] at hx
          subst hx
          exact hemit x he
    · intro b0 hb0
      simp [initAgg] at hb0
  exact hP.2

/-- C2 (as the code behaves): no finalized bar emitted by the aggregator ever
carries a `price_acceptance` entry in `raw_scores`, so the signal engine's
ACCEPTANCE sensor reads the default 0 from every finalized bar — the tri-state
close-versus-prior-range value required by the spec is never populated. -/
theorem C2_price_acceptance_unpopulated (im : ℕ) (ticks : List EnrichedTick)
    (b : BarData) (hb : b ∈ (runAgg im ticks).2) :
    dictGet? b.raw_scores "price_acceptance" = none ∧ acceptOf b = 0 := by
  have hno : keyAbsent "price_acceptance" b.raw_scores :=
    runAgg_keyAbsent (by unfold SafeKey; decide) im ticks b hb
  refine ⟨hno, ?_⟩
  unfold acceptOf getNum
  rw [hno]

/-- Witness (and failing input) for C2: in the `C2ticks` run the second
finalized bar closes above the first bar's high, yet its `raw_scores` holds
no `price_acceptance` key and the ACCEPTANCE sensor reads 0. -/
theorem C2_price_acceptance_witness :
    ((runAgg 1 C2ticks).2.getD 0 dfltBar).high <
      ((runAgg 1 C2ticks).2.getD 1 dfltBar).close ∧
    dictGet? ((runAgg 1 C2ticks).2.getD 1 dfltBar).raw_scores
      "price_acceptance" = none ∧
    acceptOf ((runAgg 1 C2ticks).2.getD 1 dfltBar) = 0 := by
  have hb : (runAgg 1 C2ticks).2.getD 1 dfltBar ∈ (runAgg 1 C2ticks).2 := by
    with_unfolding_all decide
  have h1 : ((runAgg 1 C2ticks).2.getD 0 dfltBar).high <
      ((runAgg 1 C2ticks).2.getD 1 dfltBar).close := by
    with_unfolding_all decide
  exact ⟨h1, C2_price_acceptance_unpopulated 1 C2ticks _ hb⟩

theorem WFState_update (st : AggState) (t : EnrichedTick)
    (h : WFState st) : WFState (_update_bar_data st t) := by
  cases hb : st.building_bar with
  | none => rw [update_none st t hb]; exact h
  | some bar =>
    obtain ⟨b', hb', hhist, hint, hts, him, hop, hhi, hlo, hcl, hvol, hpa⟩ :=
      update_some st t bar hb
    obtain ⟨w1, w2, w3, w4, w5⟩ := h.2 bar hb
    constructor
    · rw [hhist]; exact h.1
    · intro b0 hb0
      have he : b' = b0 := by rw [hb'] at hb0; exact Option.some.inj hb0
      subst he
      refine ⟨?_, ?_, ?_, ?_, ?_⟩
      · rw [hlo, hop]
        split_ifs with hc
        · linarith
        · exact w1
      · rw [hop, hhi]
        split_ifs with hc
        · linarith
        · exact w2
      · rw [hlo, hcl]
        split_ifs with hc
        · linarith
        · linarith [not_lt.mp hc]
      · rw [hcl, hhi]
        split_ifs with hc
        · linarith
        · linarith [not_lt.mp hc]
      · exact le_trans w5 hvol

theorem WFState_start (st : AggState) (bts : ℕ) (t : EnrichedTick)
    (h : ∀ b ∈ st.bar_history, WFbar b) :
    WFState (_start_new_bar st bts t) := by
  obtain ⟨hh, hi, b, hb, hts, him, hop, hhi, hlo, hcl, hv, hpa⟩ :=
    start_new_props st bts t
  constructor
  · rw [hh]; exact h
  · intro b0 hb0
    have he : b = b0 := by rw [hb] at hb0; exact Option.some.inj hb0
    subst he
    refine ⟨?_, ?_, ?_, ?_, ?_⟩
    · rw [hlo, hop]
    · rw [hop, hhi]
    · rw [hlo, hcl]
    · rw [hcl, hhi]
    · rw [hv]

theorem add_tick_WF (st : AggState) (t : EnrichedTick) (h : WFState st) :
    WFState (add_tick st t).1 ∧
    (∀ b, (add_tick st t).2 = some b → WFbar b) := by
  unfold add_tick
  split_ifs with hf
  · exact ⟨h, by simp⟩
  · cases hb : st.building_bar with
    | none =>
      dsimp only
      refine ⟨WFState_update _ t (WFState_start st _ t h.1), by simp⟩
    | some bar =>
      by_cases hts : bar.timestamp ≠ bucket_ts st.interval_min t.timestamp
      · dsimp only
        rw [if_pos hts]
        obtain ⟨st', fb, hfin, hftts, hftim, hfop, hfhi, hflo, hfcl, hfv,
          hbn, hi', hhist', hpa'⟩ := finalize_some st bar hb
        rw [hfin]
        dsimp only
        obtain ⟨w1, w2, w3, w4, w5⟩ := h.2 bar hb
        have hfbwf : WFbar fb := by
          refine ⟨?_, ?_, ?_, ?_, ?_⟩
          · rw [hflo, hfop]; exact w1
          · rw [hfop, hfhi]; exact w2
          · rw [hflo, hfcl]; exact w3
          · rw [hfcl, hfhi]; exact w4
          · rw [hfv]; exact w5
        constructor
        · apply WFState_update
          apply WFState_start
          rw [hhist']
          intro x hxmem
          rcases mem_pushMax hxmem with hmem | rfl
          · exact h.1 x hmem
          · exact hfbwf
        · intro b0 hb0
          have he : fb = b0 := Option.some.inj hb0
          subst he
          exact hfbwf
      · dsimp only
        rw [if_neg hts]
        exact ⟨WFState_update st t h, by simp⟩

/-- C5 (amended): every finalized bar emitted by the aggregator satisfies
low ≤ open ≤ high, low ≤ close ≤ high and volume ≥ 0; the bar VWAP, however,
need not lie within [low, high] (see the counterexample). -/
theorem C5_finalized_bar_well_formed (im : ℕ) (ticks : List EnrichedTick)
    (b : BarData) (hb : b ∈ (runAgg im ticks).2) :
    b.low ≤ b.open_ ∧ b.open_ ≤ b.high ∧ b.low ≤ b.close ∧
    b.close ≤ b.high ∧ 0 ≤ b.volume := by
  have hP : WFState (runAgg im ticks).1 ∧
      ∀ x ∈ (runAgg im ticks).2, WFbar x := by
    refine runAgg_fold_inv (fun acc => WFState acc.1 ∧ ∀ x ∈ acc.2, WFbar x)
      ?_ ticks (initAgg im, []) ⟨⟨by simp [initAgg], ?_⟩, by simp⟩
    · rintro ⟨st, bs⟩ t ⟨h1, h2⟩
      obtain ⟨ha, hemit⟩ := add_tick_WF st t h1
      refine ⟨ha, ?_⟩
      intro x hx
      rcases List.mem_append.mp hx with hx | hx
      · exact h2 x hx
      · cases he : (add_tick st t).2 with
        | none => rw [he] at hx; simp at hx
        | some fb =>
          rw [he] at hx
          simp only [Option.toList_some, List.mem_singleton] at hx
          subst hx
          exact hemit x he
    · intro b0 hb0
      simp [initAgg] at hb0
  exact hP.2 b hb

/-- C5 counterexample: running `C5ticks` finalizes a single bar with positive
volume whose bar VWAP (200) exceeds its high (100) — the claimed
`bar_vwap ∈ [low, high]` invariant fails on the code. -/
theorem C5_vwap_counterexample :
    (runAgg 1 C5ticks).2.length = 1 ∧
    0 < ((runAgg 1 C5ticks).2.getD 0 dfltBar).volume ∧
    ((runAgg 1 C5ticks).2.getD 0 dfltBar).high <
      ((runAgg 1 C5ticks).2.getD 0 dfltBar).bar_vwap := by
  with_unfolding_all decide

/-- Witness for C5's amended claim on the concrete `C5ticks` run. -/
theorem C5_well_formed_witness :
    ((runAgg 1 C5ticks).2.getD 0 dfltBar).low ≤
      ((runAgg 1 C5ticks).2.getD 0 dfltBar).open_ ∧
    ((runAgg 1 C5ticks).2.getD 0 dfltBar).open_ ≤
      ((runAgg 1 C5ticks).2.getD 0 dfltBar).high ∧
    ((runAgg 1 C5ticks).2.getD 0 dfltBar).low ≤
      ((runAgg 1 C5ticks).2.getD 0 dfltBar).close ∧
    ((runAgg 1 C5ticks).2.getD 0 dfltBar).close ≤
      ((runAgg 1 C5ticks).2.getD 0 dfltBar).high ∧
    0 ≤ ((runAgg 1 C5ticks).2.getD 0 dfltBar).volume :=
  C5_finalized_bar_well_formed 1 C5ticks _ (by with_unfolding_all decide)

theorem chain'_append_forall {α : Type} {R : α → α → Prop} :
    ∀ (l : List α) (a : α), List.Chain' R l → (∀ x ∈ l, R x a) →
      List.Chain' R (l ++ [a]) := by
  intro l
  induction l with
  | nil => intro a _ _; simp
  | cons x xs ih =>
    intro a hl ha
    cases xs with
    | nil =>
      simp only [List.cons_append, List.nil_append]
      exact List.chain'_cons.mpr ⟨ha x (by simp), List.chain'_singleton a⟩
    | cons y ys =>
      simp only [List.cons_append] at ha ⊢
      rw [List.chain'_cons]
      refine ⟨(List.chain'_cons.mp hl).1, ?_⟩
      have := ih a hl.tail (fun z hz => ha z (List.mem_cons_of_mem _ hz))
      simpa using this

theorem TSInv_mono {im : ℕ} {st : AggState} {bs : List BarData}
    {lb lb' : ℕ} (hle : lb ≤ lb') (h : TSInv im st bs lb) :
    TSInv im st bs lb' := by
  obtain ⟨him, hch, hcase⟩ := h
  refine ⟨him, hch, ?_⟩
  rcases hcase with ⟨h1, h2⟩ | ⟨b, hb, hall, hbts⟩
  · exact Or.inl ⟨h1, h2⟩
  · exact Or.inr ⟨b, hb, hall, le_trans hbts (bucket_ts_mono im hle)⟩

theorem add_tick_TS (im : ℕ) (st : AggState) (bs : List BarData) (lb : ℕ)
    (t : EnrichedTick) (hlb : lb ≤ t.timestamp) (h : TSInv im st bs lb) :
    TSInv im (add_tick st t).1 (bs ++ (add_tick st t).2.toList)
      t.timestamp := by
  obtain ⟨him, hch, hcase⟩ := h
  subst him
  unfold add_tick
  split_ifs with hf
  · dsimp only
    simp only [Option.toList_none, List.append_nil]
    exact TSInv_mono hlb ⟨rfl, hch, hcase⟩
  · rcases hcase with ⟨hbn, hbs⟩ | ⟨b, hb, hall, hbts⟩
    · rw [hbn]
      dsimp only
      simp only [Option.toList_none, List.append_nil]
      subst hbs
      obtain ⟨hh1, hi1, nb, hbuild, hts1, him1, _, _, _, _, _, _⟩ :=
        start_new_props st (bucket_ts st.interval_min t.timestamp) t
      obtain ⟨nb', hnb', hhist, hint, hts', _, _, _, _, _, _, _⟩ :=
        update_some _ t nb hbuild
      refine ⟨by rw [hint, hi1], by simp, Or.inr ⟨nb', hnb', by simp, ?_⟩⟩
      rw [hts', hts1]
    · rw [hb]
      dsimp only
      by_cases hne : b.timestamp ≠ bucket_ts st.interval_min t.timestamp
      · rw [if_pos hne]
        obtain ⟨st', fb, hfin, hftts, _, _, _, _, _, _, hbn', hi', hhist', _⟩ :=
          finalize_some st b hb
        rw [hfin]
        dsimp only
        simp only [Option.toList_some]
        have hble : b.timestamp ≤ bucket_ts st.interval_min t.timestamp :=
          le_trans hbts (bucket_ts_mono _ hlb)
        have hblt : b.timestamp < bucket_ts st.interval_min t.timestamp :=
          lt_of_le_of_ne hble hne
        obtain ⟨hh2, hi2, nb, hbuild2, hts2, _, _, _, _, _, _, _⟩ :=
          start_new_props st' (bucket_ts st.interval_min t.timestamp) t
        obtain ⟨nb', hnb', hhist2, hint2, hts2', _, _, _, _, _, _, _⟩ :=
          update_some _ t nb hbuild2
        refine ⟨by rw [hint2, hi2, hi'], ?_, Or.inr ⟨nb', hnb', ?_, ?_⟩⟩
        · rw [List.map_append]
          apply chain'_append_forall _ _ hch
          intro x hx
          simp only [List.mem_map] at hx
          obtain ⟨xb, hxb, rfl⟩ := hx
          simp only [List.map_cons, List.map_nil]
          rw [hftts]
          exact hall xb hxb
        · intro x hx
          rw [hts2', hts2]
          rcases List.mem_append.mp hx with hx | hx
          · exact lt_trans (hall x hx) hblt
          · simp only [List.mem_singleton] at hx
            subst hx
            rw [hftts]
            exact hblt
        · rw [hts2', hts2]
      · rw [if_neg hne]
        dsimp only
        simp only [Option.toList_none, List.append_nil]
        obtain ⟨b', hb', hhist, hint, hts', _, _, _, _, _, _, _⟩ :=
          update_some st t b hb
        refine ⟨by rw [hint], hch, Or.inr ⟨b', hb', ?_, ?_⟩⟩
        · intro x hx
          rw [hts']
          exact hall x hx
        · rw [hts']
          exact le_trans hbts (bucket_ts_mono _ hlb)

theorem C8go (im : ℕ) :
    ∀ (ticks : List EnrichedTick) (st : AggState) (bs : List BarData)
      (lb : ℕ),
      List.Chain (fun a b => a ≤ b) lb (ticks.map (fun t => t.timestamp)) →
      TSInv im st bs lb →
      List.Chain' (· < ·)
        (((ticks.foldl aggStep (st, bs)).2).map (fun b => b.timestamp)) := by
  intro ticks
  induction ticks with
  | nil => intro st bs lb _ h; exact h.2.1
  | cons t rest ih =>
    intro st bs lb hchain h
    rw [List.map_cons] at hchain
    obtain ⟨h1, h2⟩ := List.chain_cons.mp hchain
    rw [List.foldl_cons]
    exact ih (add_tick st t).1 (bs ++ (add_tick st t).2.toList) t.timestamp h2
      (add_tick_TS im st bs lb t h1 h)

/-- C8: assuming tick timestamps for an instrument arrive in non-decreasing
order, the finalized bars emitted by one (instrument, interval) aggregator
have strictly increasing timestamps. -/
theorem C8_bar_timestamps_strictly_increasing (im : ℕ)
    (ticks : List EnrichedTick)
    (hsort : List.Chain' (fun a b => a.timestamp ≤ b.timestamp) ticks) :
    List.Chain' (· < ·) (((runAgg im ticks).2).map (fun b => b.timestamp)) := by
  unfold runAgg
  cases ticks with
  | nil => simp
  | cons t rest =>
    apply C8go im (t :: rest) (initAgg im) [] t.timestamp ?_ ?_
    · rw [List.map_cons]
      refine List.Chain.cons (le_refl _) ?_
      have hc : List.Chain (fun a b : EnrichedTick => a.timestamp ≤ b.timestamp)
          t rest := hsort
      exact (List.chain_map (fun t : EnrichedTick => t.timestamp)).mpr hc
    · exact ⟨rfl, by simp, Or.inl ⟨rfl, rfl⟩⟩

/-- Witness for C8: three ordered ticks produce two finalized bars with
strictly increasing timestamps. -/
theorem C8_strictly_increasing_witness :
    List.Chain' (fun a b : EnrichedTick => a.timestamp ≤ b.timestamp)
      C8ticks ∧
    (runAgg 1 C8ticks).2.length = 2 ∧
    List.Chain' (· < ·) (((runAgg 1 C8ticks).2).map (fun b => b.timestamp)) := by
  have hs : List.Chain' (fun a b : EnrichedTick => a.timestamp ≤ b.timestamp)
      C8ticks := by
    norm_num [C8ticks, List.chain'_cons, List.chain'_singleton]
  exact ⟨hs, by with_unfolding_all decide,
    C8_bar_timestamps_strictly_increasing 1 C8ticks hs⟩

theorem dictGet?_cons_eq {α : Type} (k : String) (v : α)
    (rest : List (String × α)) : dictGet? ((k, v) :: rest) k = some v := by
  simp [dictGet?]

theorem dictGet?_cons_ne {α : Type} (k0 k : String) (v : α)
    (rest : List (String × α)) (h : k0 ≠ k) :
    dictGet? ((k0, v) :: rest) k = dictGet? rest k := by
  simp [dictGet?, h]

/-- Shape of the scorer's lookups: when the lookback guards pass,
`price_vs_rsi`/`price_vs_mfi` difference the `rsi_smoothed`/`mfi_smoothed`
entries (defaults 50) over 100 and `price_vs_cvd` differences the
`cvd_5m_smoothed` entries (default 0) over the guarded window volume. -/
theorem calculate_scores_smoothed_lookups (current_bar : BarData)
    (bar_history : List BarData) (start_bar : BarData)
    (h5 : MIN_LOOKBACK_MIN ≤ bar_history.length * current_bar.interval_min)
    (hlen : div_lookback_bars current_bar bar_history ≤ bar_history.length)
    (hstart : getNegIdx bar_history (div_lookback_bars current_bar bar_history)
      = some start_bar)
    (hc : ¬ start_bar.close = 0) :
    dictGet? (calculate_scores current_bar bar_history) "price_vs_rsi" =
      some (_calculate_divergence_score
        ((current_bar.close - start_bar.close) / start_bar.close)
        ((getNum current_bar.raw_scores "rsi_smoothed" 50 -
          getNum start_bar.raw_scores "rsi_smoothed" 50) / 100)) ∧
    dictGet? (calculate_scores current_bar bar_history) "price_vs_mfi" =
      some (_calculate_divergence_score
        ((current_bar.close - start_bar.close) / start_bar.close)
        ((getNum current_bar.raw_scores "mfi_smoothed" 50 -
          getNum start_bar.raw_scores "mfi_smoothed" 50) / 100)) ∧
    dictGet? (calculate_scores current_bar bar_history) "price_vs_cvd" =
      some (_calculate_divergence_score
        ((current_bar.close - start_bar.close) / start_bar.close)
        ((getNum current_bar.raw_scores "cvd_5m_smoothed" 0 -
          getNum start_bar.raw_scores "cvd_5m_smoothed" 0) /
          (((if div_volume_in_window current_bar bar_history = 0 then 1
            else div_volume_in_window current_bar bar_history) : ℤ) : ℚ))) := by
  unfold div_lookback_bars at hlen hstart
  unfold calculate_scores
  dsimp only
  rw [if_neg (not_lt.mpr h5)]
  rw [if_neg (not_lt.mpr hlen)]
  rw [hstart]
  dsimp only
  rw [if_neg hc]
  unfold div_volume_in_window div_lookback_bars lastSlice
  refine ⟨?_, ?_, ?_⟩
  · rw [dictGet?_cons_ne _ _ _ _ (by decide),
      dictGet?_cons_ne _ _ _ _ (by decide),
      dictGet?_cons_ne _ _ _ _ (by decide), dictGet?_cons_eq]
  · rw [dictGet?_cons_ne _ _ _ _ (by decide),
      dictGet?_cons_ne _ _ _ _ (by decide),
      dictGet?_cons_ne _ _ _ _ (by decide),
      dictGet?_cons_ne _ _ _ _ (by decide), dictGet?_cons_eq]
  · rw [dictGet?_cons_ne _ _ _ _ (by decide), dictGet?_cons_eq]

theorem getNum_of_absent (d : RawScores) (k : String) (dflt : ℚ)
    (h : dictGet? d k = none) : getNum d k dflt = dflt := by
  unfold getNum
  rw [h]

/-- C6 (as the code behaves): the scorer's RSI/MFI/CVD secondary changes are
read from the `rsi_smoothed`/`mfi_smoothed`/`cvd_5m_smoothed` raw-score
keys, which no aggregator code path ever writes. Part 1: every finalized bar
lacks all three keys. Part 2: on bars lacking them the `price_vs_rsi`,
`price_vs_mfi` and `price_vs_cvd` scores are computed with secondary change
0 (from the defaults 50/50/0), not with the raw difference of the bars'
RSI/MFI/CVD values stored under `rsi`/`mfi`/`cvd_5m`. -/
theorem C6_smoothed_inputs_never_populated :
    (∀ (im : ℕ) (ticks : List EnrichedTick), ∀ b ∈ (runAgg im ticks).2,
      dictGet? b.raw_scores "rsi_smoothed" = none ∧
      dictGet? b.raw_scores "mfi_smoothed" = none ∧
      dictGet? b.raw_scores "cvd_5m_smoothed" = none) ∧
    (∀ (current_bar : BarData) (bar_history : List BarData)
      (start_bar : BarData),
      MIN_LOOKBACK_MIN ≤ bar_history.length * current_bar.interval_min →
      div_lookback_bars current_bar bar_history ≤ bar_history.length →
      getNegIdx bar_history (div_lookback_bars current_bar bar_history) =
        some start_bar →
      ¬ start_bar.close = 0 →
      dictGet? current_bar.raw_scores "rsi_smoothed" = none →
      dictGet? start_bar.raw_scores "rsi_smoothed" = none →
      dictGet? current_bar.raw_scores "mfi_smoothed" = none →
      dictGet? start_bar.raw_scores "mfi_smoothed" = none →
      dictGet? current_bar.raw_scores "cvd_5m_smoothed" = none →
      dictGet? start_bar.raw_scores "cvd_5m_smoothed" = none →
      dictGet? (calculate_scores current_bar bar_history) "price_vs_rsi" =
        some (_calculate_divergence_score
          ((current_bar.close - start_bar.close) / start_bar.close) 0) ∧
      dictGet? (calculate_scores current_bar bar_history) "price_vs_mfi" =
        some (_calculate_divergence_score
          ((current_bar.close - start_bar.close) / start_bar.close) 0) ∧
      dictGet? (calculate_scores current_bar bar_history) "price_vs_cvd" =
        some (_calculate_divergence_score
          ((current_bar.close - start_bar.close) / start_bar.close) 0)) := by
  constructor
  · intro im ticks b hb
    exact ⟨runAgg_keyAbsent (by unfold SafeKey; decide) im ticks b hb,
      runAgg_keyAbsent (by unfold SafeKey; decide) im ticks b hb,
      runAgg_keyAbsent (by unfold SafeKey; decide) im ticks b hb⟩
  · intro cb hist sb h5 hlb hstart hc hcr hsr hcm hsm hcc hsc
    obtain ⟨hr, hm, hcv⟩ :=
      calculate_scores_smoothed_lookups cb hist sb h5 hlb hstart hc
    refine ⟨?_, ?_, ?_⟩
    · rw [hr, getNum_of_absent _ _ _ hcr, getNum_of_absent _ _ _ hsr]
      norm_num
    · rw [hm, getNum_of_absent _ _ _ hcm, getNum_of_absent _ _ _ hsm]
      norm_num
    · rw [hcv, getNum_of_absent _ _ _ hcc, getNum_of_absent _ _ _ hsc]
      norm_num

/-- Witness (and failing input) for C6: in the `C6ticks` run the sixth bar's
RSI (75) differs from the first bar's (100), so the claimed secondary change
(rsi difference)/100 is nonzero, yet the smoothed key is absent and the
scorer computes `price_vs_rsi` with secondary change 0. -/
theorem C6_smoothed_inputs_witness :
    dictGet? ((runAgg 1 C6ticks).2.getD 5 dfltBar).raw_scores
      "rsi_smoothed" = none ∧
    (getNum ((runAgg 1 C6ticks).2.getD 5 dfltBar).raw_scores "rsi" 50 -
      getNum ((runAgg 1 C6ticks).2.getD 0 dfltBar).raw_scores "rsi" 50) / 100
      ≠ 0 ∧
    dictGet? (calculate_scores ((runAgg 1 C6ticks).2.getD 5 dfltBar)
        ((runAgg 1 C6ticks).2.take 5)) "price_vs_rsi" =
      some (_calculate_divergence_score
        ((((runAgg 1 C6ticks).2.getD 5 dfltBar).close -
          ((runAgg 1 C6ticks).2.getD 0 dfltBar).close) /
          ((runAgg 1 C6ticks).2.getD 0 dfltBar).close) 0) := by
  refine ⟨(C6_smoothed_inputs_never_populated.1 1 C6ticks _
      (by with_unfolding_all decide)).1,
    by with_unfolding_all decide, ?_⟩
  exact (C6_smoothed_inputs_never_populated.2
    ((runAgg 1 C6ticks).2.getD 5 dfltBar) ((runAgg 1 C6ticks).2.take 5)
    ((runAgg 1 C6ticks).2.getD 0 dfltBar)
    (by with_unfolding_all decide) (by with_unfolding_all decide)
    (by with_unfolding_all decide) (by with_unfolding_all decide)
    (by with_unfolding_all decide) (by with_unfolding_all decide)
    (by with_unfolding_all decide) (by with_unfolding_all decide)
    (by with_unfolding_all decide) (by with_unfolding_all decide)).1

theorem divScore_range (P S : ℚ) :
    -1 ≤ _calculate_divergence_score P S ∧
    _calculate_divergence_score P S ≤ 1 := by
  unfold _calculate_divergence_score
  dsimp only
  split_ifs with h1 h2
  · constructor
    · exact le_min (by norm_num) (by linarith)
    · exact min_le_left _ _
  · constructor
    · exact neg_le_neg (min_le_left _ _)
    · have : (0 : ℚ) ≤ min 1 ((P * DIVERGENCE_MULTIPLIER - S) * 10) :=
        le_min (by norm_num) (by linarith)
      linarith
  · norm_num

/-- C10: every score the divergence scorer returns lies in [−1, 1]: with
bullish = S − 2P > 0 the score is min(1, 10·bullish), strictly positive;
with bearish = 2P − S > 0 it is −min(1, 10·bearish), strictly negative;
otherwise it is 0. -/
theorem C10_divergence_score_range :
    (∀ primary_change secondary_change : ℚ,
      (0 < secondary_change - primary_change * DIVERGENCE_MULTIPLIER →
        _calculate_divergence_score primary_change secondary_change =
          min 1 ((secondary_change - primary_change * DIVERGENCE_MULTIPLIER)
            * 10) ∧
        0 < _calculate_divergence_score primary_change secondary_change) ∧
      (0 < primary_change * DIVERGENCE_MULTIPLIER - secondary_change →
        _calculate_divergence_score primary_change secondary_change =
          -(min 1 ((primary_change * DIVERGENCE_MULTIPLIER - secondary_change)
            * 10)) ∧
        _calculate_divergence_score primary_change secondary_change < 0) ∧
      (secondary_change - primary_change * DIVERGENCE_MULTIPLIER ≤ 0 →
        primary_change * DIVERGENCE_MULTIPLIER - secondary_change ≤ 0 →
        _calculate_divergence_score primary_change secondary_change = 0) ∧
      (-1 ≤ _calculate_divergence_score primary_change secondary_change ∧
        _calculate_divergence_score primary_change secondary_change ≤ 1)) ∧
    (∀ (current_bar : BarData) (bar_history : List BarData),
      ∀ p ∈ calculate_scores current_bar bar_history,
        -1 ≤ p.2 ∧ p.2 ≤ 1) := by
  constructor
  · intro P S
    refine ⟨?_, ?_, ?_, divScore_range P S⟩
    · intro hb
      unfold _calculate_divergence_score
      dsimp only
      rw [if_pos hb]
      exact ⟨rfl, lt_min (by norm_num) (by linarith)⟩
    · intro hb
      unfold _calculate_divergence_score
      dsimp only
      rw [if_neg (by linarith), if_pos hb]
      refine ⟨rfl, ?_⟩
      have : (0 : ℚ) < min 1 ((P * DIVERGENCE_MULTIPLIER - S) * 10) :=
        lt_min (by norm_num) (by linarith)
      linarith
    · intro hb1 hb2
      unfold _calculate_divergence_score
      dsimp only
      rw [if_neg (by linarith), if_neg (by linarith)]
  · intro current_bar bar_history p hp
    unfold calculate_scores at hp
    dsimp only at hp
    split_ifs at hp
    all_goals
      first
        | exact absurd hp (List.not_mem_nil p)
        | (cases hgi : getNegIdx bar_history
            (min (bar_history.length * current_bar.interval_min)
              COMPOSITE_FEATURE_LOOKBACK_MIN / current_bar.interval_min) with
          | none =>
            rw [hgi] at hp
            exact absurd hp (List.not_mem_nil p)
          | some sb =>
            rw [hgi] at hp
            dsimp only at hp
            split_ifs at hp
            all_goals
              first
                | exact absurd hp (List.not_mem_nil p)
                | (simp only [List.mem_cons, List.not_mem_nil, or_false] at hp
                   rcases hp with rfl | rfl | rfl | rfl | rfl | rfl | rfl |
                     rfl | rfl | rfl <;>
                     exact divScore_range _ _))

/-- Witness for C10: a strictly bullish pair yields score 1/10 ∈ (0, 1], and
the concrete obv-divergence score of `C10bar` against `C10hist` is in
[−1, 1]. -/
theorem C10_divergence_score_range_witness :
    ((0 : ℚ) < 1 / 100 - 0 * DIVERGENCE_MULTIPLIER ∧
      _calculate_divergence_score 0 (1 / 100) =
        min 1 ((1 / 100 - 0 * DIVERGENCE_MULTIPLIER) * 10) ∧
      0 < _calculate_divergence_score 0 (1 / 100)) ∧
    (("price_vs_obv", (1 : ℚ)) ∈ calculate_scores C10bar C10hist ∧
      -1 ≤ (("price_vs_obv", (1 : ℚ)) : String × ℚ).2 ∧
      (("price_vs_obv", (1 : ℚ)) : String × ℚ).2 ≤ 1) := by
  have hb : (0 : ℚ) < 1 / 100 - 0 * DIVERGENCE_MULTIPLIER := by norm_num
  have hmem : ("price_vs_obv", (1 : ℚ)) ∈ calculate_scores C10bar C10hist := by
    with_unfolding_all decide
  exact ⟨⟨hb, (C10_divergence_score_range.1 0 (1 / 100)).1 hb⟩,
    ⟨hmem, C10_divergence_score_range.2 C10bar C10hist _ hmem⟩⟩

end Gidh
